import Mathlib

/-!
# Imposter game: the room/session server (`server.js`)

A shallow embedding of the socket handlers of `server.js` and theorems about
them.  The module-level objects `rooms` and `disconnectTimers` and the
per-socket `socket.data` become the fields of an explicit `World`; every
handler is a function from a world, the identity of the requesting socket and
the event payload to the next world and the list of emitted events.

Conventions of the embedding:

* `crypto.randomInt(max)` is modelled by an explicit draw `d : Nat`: the call
  returns `d % max`, so every value of `[0, max)` is reached by some draw, and
  it throws a `RangeError` when `max = 0`.
* A property read `o[k]` with a client-supplied key `k` on an object literal
  follows the prototype chain: keys of `Object.prototype` are found even when
  they are not own properties (`jsLookup`).
* Socket identities are generated by the transport; they are an opaque type
  with decidable equality (`SocketId`), never keys of `Object.prototype`.
* Event payload fields (`playerName`, `roomCode`, `category`, `text`) are
  strings.
* A handler that throws is not caught anywhere in `server.js`; the outcome
  `Failure.uncaught` records that the handler was aborted at that point.
* The resampling loop of `create-room` runs on a finite supply of draws;
  `Failure.outOfDraws` records that the supply ended before a free code was
  drawn. `Failure.noTimer` records that no grace timer was pending for the
  identity whose expiry was asked for.
-/

namespace Imposter

/-! ## JavaScript objects used as dictionaries -/

/-- The identity `socket.id` of a connection. -/
abbrev SocketId := Nat

/-- A key of the `rooms` object. -/
abbrev RoomCode := String

/-- Own-property read: `o[k]` restricted to the own properties of `o`. -/
def objGet {κ β : Type} [DecidableEq κ] : List (κ × β) → κ → Option β
  | [], _ => none
  | (k', v) :: rest, k => if k' = k then some v else objGet rest k

/-- Property write `o[k] = v`: an existing key keeps its position. -/
def objSet {κ β : Type} [DecidableEq κ] : List (κ × β) → κ → β → List (κ × β)
  | [], k, v => [(k, v)]
  | (k', v') :: rest, k, v =>
    if k' = k then (k, v) :: rest else (k', v') :: objSet rest k v

/-- Property removal `delete o[k]`. -/
def objDelete {κ β : Type} [DecidableEq κ] (o : List (κ × β)) (k : κ) : List (κ × β) :=
  o.filter (fun e => decide (e.1 ≠ k))

/-- The property names of `Object.prototype`, each with the `.length` of the
value found there (`none` when that value has no `length`): all but
`__proto__` are functions, whose `length` is their declared arity. -/
def objectPrototype : List (String × Option Nat) :=
  [("constructor", some 1), ("__defineGetter__", some 2), ("__defineSetter__", some 2),
   ("hasOwnProperty", some 1), ("__lookupGetter__", some 1), ("__lookupSetter__", some 1),
   ("isPrototypeOf", some 1), ("propertyIsEnumerable", some 1), ("toString", some 0),
   ("valueOf", some 0), ("__proto__", none), ("toLocaleString", some 0)]

/-- Result of a property read `o[k]` on an object literal. -/
inductive Lookup (β : Type) where
  | own (v : β)
  | inherited (length : Option Nat)
  | undefined
  deriving DecidableEq, Repr

/-- Property read `o[k]` on an object literal `o` with a string key: own
properties first, then `Object.prototype`. -/
def jsLookup {β : Type} (o : List (String × β)) (k : String) : Lookup β :=
  match objGet o k with
  | some v => .own v
  | none =>
    match objGet objectPrototype k with
    | some len => .inherited len
    | none => .undefined

/-- The call `randomInt(max)` with the random source fixed to `draw`. -/
def randomInt (draw max : Nat) : Option Nat :=
  if max = 0 then none else some (draw % max)

/-! ## Categories and words -/

/-- The object literal `CATEGORIES`. -/
def CATEGORIES : List (String × List String) :=
  [("Pop Culture",
    ["Beyoncé", "Taylor Swift", "Marvel", "TikTok", "Netflix",
     "iPhone", "YouTube", "Kanye West", "Kim Kardashian", "Instagram",
     "Disney", "Harry Styles", "Rihanna", "Adele", "BTS",
     "Dua Lipa", "Elon Musk", "Billie Eilish", "Zendaya", "Bad Bunny"]),
   ("TV Shows",
    ["Stranger Things", "Breaking Bad", "Friends", "Game of Thrones",
     "The Office", "Grey\x27s Anatomy", "Squid Game", "Wednesday",
     "Euphoria", "The Crown", "Succession", "Ozark",
     "The Mandalorian", "Black Mirror", "Ted Lasso",
     "Yellowstone", "The Bear", "White Lotus", "House of Dragon", "Severance"]),
   ("Movies",
    ["Titanic", "Avatar", "The Dark Knight", "Inception",
     "Avengers", "Jurassic Park", "Star Wars", "The Lion King",
     "Frozen", "Harry Potter", "Top Gun", "Interstellar",
     "Gladiator", "The Matrix", "Barbie",
     "Oppenheimer", "Dune", "Everything Everywhere", "Parasite", "Get Out"]),
   ("Sports",
    ["Soccer", "Basketball", "Tennis", "Swimming",
     "Baseball", "Golf", "Boxing", "Olympics",
     "Super Bowl", "World Cup", "NFL", "NBA",
     "Formula 1", "Gymnastics", "Volleyball",
     "Hockey", "Wrestling", "MMA", "Marathon", "Skateboarding"]),
   ("random",
    ["goon", "blanca", "pooper", "raymonds",
     "christycream", "realms", "mr.rohner", "is it sweaty",
     "charles", "nina", "milo", "black people",
     "makenzie(joeys ebony sister)"])]

/-- The list `Object.keys(CATEGORIES)` sent to clients as `categories`. -/
def categoryNames : List String :=
  CATEGORIES.map (fun e => e.1)

/-! ## Data model -/

/-- The field `gameState`: `'lobby' | 'playing' | 'ended'`. -/
inductive GameState where
  | lobby
  | playing
  | ended
  deriving DecidableEq, Repr

/-- An element of `room.players`. -/
structure Player where
  id : SocketId
  name : String
  isHost : Bool
  deriving DecidableEq, Repr

/-- A value stored in `secretWord` or in the `word` of a role: `null`,
`undefined` or a string. -/
inductive Word where
  | null
  | undefined
  | str (s : String)
  deriving DecidableEq, Repr

/-- A value of `room.roles`. -/
structure RoleAssignment where
  isImposter : Bool
  word : Word
  deriving DecidableEq, Repr

/-- A value of the `rooms` object. -/
structure Room where
  host : SocketId
  players : List Player
  gameState : GameState
  category : Option String
  secretWord : Word
  imposterId : Option SocketId
  roles : List (SocketId × RoleAssignment)
  deriving DecidableEq, Repr

/-- The object `socket.data` of one connection; `none` is `undefined`. -/
structure Session where
  roomCode : Option RoomCode
  playerName : Option String
  deriving DecidableEq, Repr

/-- The mutable state of the server: `rooms`, `disconnectTimers` (each pending
timer with the room code captured by its callback) and every `socket.data`. -/
structure World where
  rooms : List (RoomCode × Room)
  disconnectTimers : List (SocketId × RoomCode)
  sessions : List (SocketId × Session)
  deriving DecidableEq, Repr

/-- The state of a freshly started server. -/
def World.empty : World :=
  { rooms := [], disconnectTimers := [], sessions := [] }

/-- The object `socket.data` of socket `s` (initially without fields). -/
def sessionOf (w : World) (s : SocketId) : Session :=
  match objGet w.sessions s with
  | some d => d
  | none => { roomCode := none, playerName := none }

/-- The property key used by `rooms[socket.data.roomCode]`: an `undefined`
room code is converted to the string `undefined`. -/
def sessionKey (w : World) (s : SocketId) : String :=
  match (sessionOf w s).roomCode with
  | some c => c
  | none => "undefined"

/-! ## Outbound events -/

/-- Addressee of an emitted event: `socket.emit` or `io.to(code).emit`. -/
inductive Target where
  | socket (id : SocketId)
  | room (code : RoomCode)
  deriving DecidableEq, Repr

/-- Name and payload of an emitted event. -/
inductive Payload where
  | roomCreated (roomCode : RoomCode) (players : List Player) (categories : List String)
  | roomJoined (roomCode : RoomCode) (players : List Player) (categories : List String)
  | playersUpdated (players : List Player)
  | gameStarted (category : String)
  | yourRole (role : RoleAssignment)
  | chatMessage (name : Option String) (text : List Nat)
  | gameEnded (secretWord : Word) (imposterName : String) (category : Option String)
  | resetGame (players : List Player) (categories : List String)
  | gameError (message : String)
  | rejoinedRoom (roomCode : RoomCode) (players : List Player) (categories : List String)
      (gameState : GameState) (category : Option String)
  | rejoinFailed (message : String)
  deriving DecidableEq, Repr

/-- One emitted event. -/
structure Emit where
  target : Target
  payload : Payload
  deriving DecidableEq, Repr

/-- Why a handler produced no next state. -/
inductive Failure where
  | uncaught (error : String)
  | outOfDraws
  | noTimer
  deriving DecidableEq, Repr

/-- Result of running one handler. -/
abbrev Outcome := Except Failure (World × List Emit)

/-- The private reply `socket.emit('game-error', { message })`. -/
def gameError (s : SocketId) (message : String) : Emit :=
  { target := .socket s, payload := .gameError message }

/-! ## Room codes -/

/-- The string `chars` of `randomCode`, as its list of characters. -/
def chars : List Char :=
  ['A', 'B', 'C', 'D', 'E', 'F', 'G', 'H', 'J', 'K', 'L', 'M', 'N', 'P', 'Q', 'R',
   'S', 'T', 'U', 'V', 'W', 'X', 'Y', 'Z', '2', '3', '4', '5', '6', '7', '8', '9']

/-- The expression `chars[randomInt(chars.length)]` for one draw. -/
def randomChar (draw : Nat) : Char :=
  chars.getD (draw % chars.length) 'A'

/-- The function `randomCode`, applied to the six draws it consumes. -/
def randomCode (d0 d1 d2 d3 d4 d5 : Nat) : String :=
  String.mk [randomChar d0, randomChar d1, randomChar d2,
             randomChar d3, randomChar d4, randomChar d5]

/-- Truthiness of `rooms[code]`. -/
def roomsTruthy (rooms : List (RoomCode × Room)) (code : String) : Bool :=
  match jsLookup rooms code with
  | .undefined => false
  | _ => true

/-- The loop `do { code = randomCode(); } while (rooms[code]);` run on a finite
supply of draws, six per iteration; `none` when the supply ends while the loop
is still resampling. -/
def pickCode (rooms : List (RoomCode × Room)) : List Nat → Option String
  | d0 :: d1 :: d2 :: d3 :: d4 :: d5 :: rest =>
    if roomsTruthy rooms (randomCode d0 d1 d2 d3 d4 d5) then pickCode rooms rest
    else some (randomCode d0 d1 d2 d3 d4 d5)
  | _ => none

/-! ## Handlers -/

/-- The room object built by `create-room` for the socket `s`. -/
def newRoom (s : SocketId) (playerName : String) : Room :=
  { host := s,
    players := [{ id := s, name := playerName, isHost := true }],
    gameState := .lobby,
    category := none,
    secretWord := .null,
    imposterId := none,
    roles := [] }

/-- Handler of `create-room`. -/
def createRoom (w : World) (s : SocketId) (playerName : String) (draws : List Nat) : Outcome :=
  match pickCode w.rooms draws with
  | none => .error .outOfDraws
  | some code =>
    .ok ({ w with
            rooms := objSet w.rooms code (newRoom s playerName),
            sessions := objSet w.sessions s
              { roomCode := some code, playerName := some playerName } },
         [{ target := .socket s,
            payload := .roomCreated code (newRoom s playerName).players categoryNames }])

/-- The statement `room.players.push(player)` of `join-room`. -/
def joinedRoom (room : Room) (s : SocketId) (playerName : String) : Room :=
  { room with players := room.players ++ [{ id := s, name := playerName, isHost := false }] }

/-- Handler of `join-room`. A `roomCode` found on the prototype only gives a
truthy `room` whose `gameState` is `undefined`. -/
def joinRoom (w : World) (s : SocketId) (roomCode playerName : String) : Outcome :=
  match jsLookup w.rooms roomCode with
  | .undefined =>
    .ok (w, [gameError s "Room not found. Check the code and try again."])
  | .inherited _ =>
    .ok (w, [gameError s "A game is already in progress in this room."])
  | .own room =>
    if room.gameState ≠ .lobby then
      .ok (w, [gameError s "A game is already in progress in this room."])
    else if room.players.any (fun p => decide (p.name = playerName)) then
      .ok (w, [gameError s "That name is already taken. Pick a different name."])
    else if room.players.length ≥ 12 then
      .ok (w, [gameError s "Room is full (max 12 players)."])
    else
      .ok ({ w with
              rooms := objSet w.rooms roomCode (joinedRoom room s playerName),
              sessions := objSet w.sessions s
                { roomCode := some roomCode, playerName := some playerName } },
           [{ target := .socket s,
              payload := .roomJoined roomCode (joinedRoom room s playerName).players
                categoryNames },
            { target := .room roomCode,
              payload := .playersUpdated (joinedRoom room s playerName).players }])

/-- The expression `words[randomInt(words.length)]` where `words` is the
result of `CATEGORIES[category]`: an own array gives one of its elements; a
function inherited from the prototype has its arity as `length` and no
indexed element; an inherited value without `length` makes `randomInt` throw. -/
def pickSecretWord (words : Lookup (List String)) (draw : Nat) : Except Failure Word :=
  match words with
  | .own ws =>
    match randomInt draw ws.length with
    | none => .error (.uncaught "RangeError")
    | some i =>
      match ws.get? i with
      | some word => .ok (.str word)
      | none => .ok .undefined
  | .inherited (some len) =>
    match randomInt draw len with
    | none => .error (.uncaught "RangeError")
    | some _ => .ok .undefined
  | .inherited none => .error (.uncaught "TypeError")
  | .undefined => .error (.uncaught "TypeError")

/-- The loop `room.players.forEach(p => { room.roles[p.id] = ... })` started
from `room.roles = {}`. -/
def assignRoles (players : List Player) (imposterId : SocketId) (secretWord : Word) :
    List (SocketId × RoleAssignment) :=
  players.foldl
    (fun roles p =>
      objSet roles p.id
        { isImposter := decide (p.id = imposterId),
          word := if p.id = imposterId then Word.null else secretWord })
    []

/-- The assignments of `start-game` to the fields of the room, once the secret
word and the imposter are drawn. -/
def startedRoom (room : Room) (category : String) (secretWord : Word)
    (imposterId : SocketId) : Room :=
  { room with
    category := some category,
    secretWord := secretWord,
    imposterId := some imposterId,
    gameState := .playing,
    roles := assignRoles room.players imposterId secretWord }

/-- Handler of `start-game`. -/
def startGame (w : World) (s : SocketId) (category : String) (wordDraw imposterDraw : Nat) :
    Outcome :=
  match jsLookup w.rooms (sessionKey w s) with
  | .undefined =>
    .ok (w, [gameError s "Room not found. Please refresh and rejoin."])
  | .inherited _ => .ok (w, [])
  | .own room =>
    if room.host ≠ s then .ok (w, [])
    else if room.gameState ≠ .lobby then .ok (w, [])
    else
      match jsLookup CATEGORIES category with
      | .undefined => .ok (w, [gameError s "Invalid category."])
      | words =>
        if room.players.length < 2 then
          .ok (w, [gameError s "Need at least 2 players to start."])
        else
          match pickSecretWord words wordDraw with
          | .error e => .error e
          | .ok secretWord =>
            match randomInt imposterDraw room.players.length with
            | none => .error (.uncaught "RangeError")
            | some imposterIndex =>
              match room.players.get? imposterIndex with
              | none => .error (.uncaught "TypeError")
              | some imposter =>
                .ok ({ w with
                        rooms := objSet w.rooms (sessionKey w s)
                          (startedRoom room category secretWord imposter.id) },
                     [{ target := .room (sessionKey w s), payload := .gameStarted category }])

/-- Handler of `get-my-role`. -/
def getMyRole (w : World) (s : SocketId) : Outcome :=
  match jsLookup w.rooms (sessionKey w s) with
  | .undefined => .ok (w, [])
  | .inherited _ => .error (.uncaught "TypeError")
  | .own room =>
    match objGet room.roles s with
    | none => .ok (w, [])
    | some role => .ok (w, [{ target := .socket s, payload := .yourRole role }])

/-- The characters removed by `String.prototype.trim`: the white space and
line terminator code points of ECMAScript. -/
def jsWhiteSpace (c : Char) : Bool :=
  decide (c.toNat ∈ [9, 10, 11, 12, 13, 32, 160, 5760, 8232, 8233, 8239, 8287, 12288, 65279])
    || (decide (8192 ≤ c.toNat) && decide (c.toNat ≤ 8202))

/-- The method `trim` on the list of characters of a string. -/
def jsTrim (cs : List Char) : List Char :=
  ((cs.dropWhile jsWhiteSpace).reverse.dropWhile jsWhiteSpace).reverse

/-- The UTF-16 code units of one character: itself in the basic plane, a high
and a low surrogate outside of it. -/
def utf16Units (c : Char) : List Nat :=
  if c.toNat < 65536 then [c.toNat]
  else [55296 + (c.toNat - 65536) / 1024, 56320 + (c.toNat - 65536) % 1024]

/-- The call `slice(0, n)` of a string given by its characters: the first `n`
UTF-16 code units, so a character outside the basic plane that the limit cuts
in half leaves its high surrogate. -/
def jsSlice (n : Nat) (cs : List Char) : List Nat :=
  (cs.flatMap utf16Units).take n

/-- Handler of `chat-message`, for a `text` that is a string; the relayed
text is given by its UTF-16 code units. -/
def chatMessage (w : World) (s : SocketId) (text : String) : Outcome :=
  let relay : Outcome :=
    if jsSlice 200 (jsTrim text.data) = [] then .ok (w, [])
    else
      .ok (w, [{ target := .room (sessionKey w s),
                 payload := .chatMessage (sessionOf w s).playerName
                   (jsSlice 200 (jsTrim text.data)) }])
  match jsLookup w.rooms (sessionKey w s) with
  | .undefined => .ok (w, [])
  | .inherited _ => relay
  | .own room => if room.gameState = .ended then .ok (w, []) else relay

/-- The statement `room.gameState = 'ended'` of `end-game`. -/
def endedRoom (room : Room) : Room :=
  { room with gameState := .ended }

/-- The assignments of `play-again` to the fields of the room. -/
def resetRoom (room : Room) : Room :=
  { room with
    gameState := .lobby,
    category := none,
    secretWord := .null,
    imposterId := none,
    roles := [] }

/-- Handler of `end-game`. -/
def endGame (w : World) (s : SocketId) : Outcome :=
  match jsLookup w.rooms (sessionKey w s) with
  | .undefined => .ok (w, [])
  | .inherited _ => .ok (w, [])
  | .own room =>
    if room.imposterId ≠ some s ∧ room.host ≠ s then .ok (w, [])
    else
      let imposterName : String :=
        match room.players.find? (fun p => decide (some p.id = room.imposterId)) with
        | some imposterPlayer => imposterPlayer.name
        | none => "Unknown"
      .ok ({ w with rooms := objSet w.rooms (sessionKey w s) (endedRoom room) },
           [{ target := .room (sessionKey w s),
              payload := .gameEnded room.secretWord imposterName room.category }])

/-- Handler of `play-again`. -/
def playAgain (w : World) (s : SocketId) : Outcome :=
  match jsLookup w.rooms (sessionKey w s) with
  | .undefined => .ok (w, [])
  | .inherited _ => .ok (w, [])
  | .own room =>
    if room.host ≠ s then .ok (w, [])
    else
      .ok ({ w with rooms := objSet w.rooms (sessionKey w s) (resetRoom room) },
           [{ target := .room (sessionKey w s),
              payload := .resetGame room.players categoryNames }])

/-- The assignment `existingPlayer.id = socket.id` on the element returned by
`room.players.find(p => p.name === playerName)`, the first with that name. -/
def remapFirst (playerName : String) (newId : SocketId) : List Player → List Player
  | [] => []
  | p :: ps =>
    if p.name = playerName then { p with id := newId } :: ps
    else p :: remapFirst playerName newId ps

/-- The role remap of `rejoin-room`: when `roles[oldId]` exists it is stored
under `newId`, then the key `oldId` is deleted. -/
def remapRoles (roles : List (SocketId × RoleAssignment)) (oldId newId : SocketId) :
    List (SocketId × RoleAssignment) :=
  match objGet roles oldId with
  | some role => objDelete (objSet roles newId role) oldId
  | none => roles

/-- The remap of `rejoin-room` from the old identity of the matched player
to the identity `s` of the requesting socket. -/
def rejoinedRoom (room : Room) (oldSocketId s : SocketId) (playerName : String) : Room :=
  { room with
    players := remapFirst playerName s room.players,
    host := if room.host = oldSocketId then s else room.host,
    imposterId := if room.imposterId = some oldSocketId then some s else room.imposterId,
    roles := remapRoles room.roles oldSocketId s }

/-- Handler of `rejoin-room`. -/
def rejoinRoom (w : World) (s : SocketId) (roomCode playerName : String) : Outcome :=
  match jsLookup w.rooms roomCode with
  | .undefined =>
    .ok (w, [{ target := .socket s, payload := .rejoinFailed "Room no longer exists." }])
  | .inherited _ => .error (.uncaught "TypeError")
  | .own room =>
    match room.players.find? (fun p => decide (p.name = playerName)) with
    | none =>
      .ok (w, [{ target := .socket s,
                 payload := .rejoinFailed "Could not rejoin — please re-enter the room." }])
    | some existingPlayer =>
      .ok ({ rooms := objSet w.rooms roomCode (rejoinedRoom room existingPlayer.id s playerName),
             disconnectTimers := objDelete w.disconnectTimers existingPlayer.id,
             sessions := objSet w.sessions s
               { roomCode := some roomCode, playerName := some playerName } },
           [{ target := .socket s,
              payload := .rejoinedRoom roomCode
                (rejoinedRoom room existingPlayer.id s playerName).players categoryNames
                room.gameState room.category },
            { target := .room roomCode,
              payload := .playersUpdated
                (rejoinedRoom room existingPlayer.id s playerName).players }])

/-- Handler of `disconnect`: schedules the grace timer of socket `s` for the
room code of its session. -/
def disconnect (w : World) (s : SocketId) : Outcome :=
  match (sessionOf w s).roomCode with
  | none => .ok (w, [])
  | some roomCode =>
    if roomCode = "" then .ok (w, [])
    else if roomsTruthy w.rooms roomCode then
      .ok ({ w with disconnectTimers := objSet w.disconnectTimers s roomCode }, [])
    else .ok (w, [])

/-- The body of the timer callback of `disconnect` for the socket identity
`x`, run on the room `room` found at `roomCode`: the room after removal and
host transfer, or `none` when the player list became empty. -/
def removePlayer (room : Room) (x : SocketId) : Option Room :=
  match room.players.filter (fun p => decide (p.id ≠ x)) with
  | [] => none
  | first :: rest =>
    if room.host = x then
      some { room with
             players := { first with isHost := true } :: rest,
             roles := objDelete room.roles x,
             host := first.id }
    else
      some { room with players := first :: rest, roles := objDelete room.roles x }

/-- Expiry of the grace timer keyed by `x` (the timer callback). -/
def timerExpired (w : World) (x : SocketId) : Outcome :=
  match objGet w.disconnectTimers x with
  | none => .error .noTimer
  | some roomCode =>
    match jsLookup w.rooms roomCode with
    | .undefined =>
      .ok ({ w with disconnectTimers := objDelete w.disconnectTimers x }, [])
    | .inherited _ => .error (.uncaught "TypeError")
    | .own room =>
      match removePlayer room x with
      | none =>
        .ok ({ w with
                rooms := objDelete w.rooms roomCode,
                disconnectTimers := objDelete w.disconnectTimers x }, [])
      | some room1 =>
        .ok ({ w with
                rooms := objSet w.rooms roomCode room1,
                disconnectTimers := objDelete w.disconnectTimers x },
             [{ target := .room roomCode, payload := .playersUpdated room1.players }])

/-! ## Inbound events and runs -/

/-- An inbound event of one socket, with the random draws its handler uses. -/
inductive Event where
  | createRoom (playerName : String) (draws : List Nat)
  | joinRoom (roomCode playerName : String)
  | startGame (category : String) (wordDraw imposterDraw : Nat)
  | getMyRole
  | chatMessage (text : String)
  | endGame
  | playAgain
  | rejoinRoom (roomCode playerName : String)
  | disconnect
  deriving DecidableEq, Repr

/-- The handler registered for an event, run for socket `s`. -/
def handle (w : World) (s : SocketId) : Event → Outcome
  | .createRoom playerName draws => createRoom w s playerName draws
  | .joinRoom roomCode playerName => joinRoom w s roomCode playerName
  | .startGame category wordDraw imposterDraw => startGame w s category wordDraw imposterDraw
  | .getMyRole => getMyRole w s
  | .chatMessage text => chatMessage w s text
  | .endGame => endGame w s
  | .playAgain => playAgain w s
  | .rejoinRoom roomCode playerName => rejoinRoom w s roomCode playerName
  | .disconnect => disconnect w s

/-- Something the event loop runs: a socket event or the expiry of a timer. -/
inductive Input where
  | event (s : SocketId) (e : Event)
  | expiry (x : SocketId)
  deriving DecidableEq, Repr

/-- One turn of the event loop. -/
def step (w : World) : Input → Outcome
  | .event s e => handle w s e
  | .expiry x => timerExpired w x

/-- The world after a sequence of inputs, when every handler returned. -/
def run (w : World) : List Input → Except Failure World
  | [] => .ok w
  | i :: rest =>
    match step w i with
    | .ok (w1, _) => run w1 rest
    | .error e => .error e

/-- The worlds the server can be in: those reached from its start-up state. -/
def Reachable (w : World) : Prop :=
  ∃ inputs : List Input, run World.empty inputs = .ok w

/-! ## Vocabulary of the properties -/

/-- The guards of `start-game` all pass: the session of `s` names the room
`room`, `s` is its host, it is in the lobby, `CATEGORIES[category]` is truthy
and there are at least two players. -/
def StartAccepted (w : World) (s : SocketId) (category : String) (room : Room) : Prop :=
  jsLookup w.rooms (sessionKey w s) = .own room ∧ room.host = s ∧ room.gameState = .lobby ∧
    jsLookup CATEGORIES category ≠ .undefined ∧ 2 ≤ room.players.length

/-- The test `roles[p.id].isImposter === true` for a player of the room. -/
def HasImposterRole (room : Room) (p : Player) : Prop :=
  ∃ r, objGet room.roles p.id = some r ∧ r.isImposter = true

/-- Role assignment of a started game: exactly one player of the room has the
imposter role, the word of that player is `null`, and the word of every other
player is not `null` and is the secret word of the room. -/
def RolesAssigned (room : Room) : Prop :=
  ∃ imp ∈ room.players,
    (∀ p ∈ room.players, HasImposterRole room p ↔ p = imp) ∧
    (∃ r, objGet room.roles imp.id = some r ∧ r.word = .null) ∧
    (∀ q ∈ room.players, q ≠ imp →
      ∃ r, objGet room.roles q.id = some r ∧ r.word ≠ .null ∧ r.word = room.secretWord)

/-- The broadcast `io.to(roomCode).emit('game-started', { category })`. -/
def gameStarted (roomCode : RoomCode) (category : String) : Emit :=
  { target := .room roomCode, payload := .gameStarted category }

/-! ## Example runs -/

/-- A world with the single room `AAAAAA` and the sessions given. -/
def oneRoomWorld (room : Room) (sessions : List (SocketId × Session)) : World :=
  { rooms := [("AAAAAA", room)], disconnectTimers := [], sessions := sessions }

/-- The session of a socket bound to room `AAAAAA` under a name. -/
def seat (playerName : String) : Session :=
  { roomCode := some "AAAAAA", playerName := some playerName }

/-- Socket 1 creates a room as `A` (the draws give the code `AAAAAA`), then the
same socket sends `join-room` for that room as `B`. -/
def sharedSeatInputs : List Input :=
  [.event 1 (.createRoom "A" [0, 0, 0, 0, 0, 0]), .event 1 (.joinRoom "AAAAAA" "B")]

/-- The room after `sharedSeatInputs`: two players with the identity 1. -/
def sharedSeatRoom : Room :=
  { host := 1,
    players := [{ id := 1, name := "A", isHost := true }, { id := 1, name := "B", isHost := false }],
    gameState := .lobby, category := none, secretWord := .null, imposterId := none, roles := [] }

/-- The room `sharedSeatRoom` after `start-game` with category Movies, word
draw 3 and imposter draw 0. -/
def sharedSeatStarted : Room :=
  { sharedSeatRoom with
    gameState := .playing, category := some "Movies", secretWord := .str "Inception",
    imposterId := some 1, roles := [(1, { isImposter := true, word := .null })] }

/-- Socket 1 creates a room as `A` and socket 2 joins it as `B`. -/
def twoPlayerInputs : List Input :=
  [.event 1 (.createRoom "A" [0, 0, 0, 0, 0, 0]), .event 2 (.joinRoom "AAAAAA" "B")]

/-- The room after `twoPlayerInputs`. -/
def twoPlayerRoom : Room :=
  { host := 1,
    players := [{ id := 1, name := "A", isHost := true }, { id := 2, name := "B", isHost := false }],
    gameState := .lobby, category := none, secretWord := .null, imposterId := none, roles := [] }

/-- The world after `twoPlayerInputs`. -/
def twoPlayerWorld : World :=
  oneRoomWorld twoPlayerRoom [(1, seat "A"), (2, seat "B")]

/-- How one input can produce the room stored under `code` afterwards: the
room was there before (`kept`), or it is the result of one handler acting on
the room stored there, with the facts the handler checked. -/
inductive RoomChange (w : World) (code : RoomCode) : Input → Room → Prop where
  | kept (i : Input) (room : Room) :
    objGet w.rooms code = some room → RoomChange w code i room
  | created (s : SocketId) (playerName : String) (draws : List Nat) :
    objGet w.rooms code = none →
    RoomChange w code (.event s (.createRoom playerName draws)) (newRoom s playerName)
  | joined (s : SocketId) (playerName : String) (room : Room) :
    objGet w.rooms code = some room → room.gameState = .lobby →
    (∀ p ∈ room.players, p.name ≠ playerName) → room.players.length < 12 →
    RoomChange w code (.event s (.joinRoom code playerName)) (joinedRoom room s playerName)
  | started (s : SocketId) (category : String) (wd idr : Nat) (room : Room) (sw : Word)
      (imp : Player) :
    StartAccepted w s category room → code = sessionKey w s →
    pickSecretWord (jsLookup CATEGORIES category) wd = .ok sw →
    room.players.get? (idr % room.players.length) = some imp →
    RoomChange w code (.event s (.startGame category wd idr))
      (startedRoom room category sw imp.id)
  | ended (s : SocketId) (room : Room) :
    objGet w.rooms code = some room → code = sessionKey w s →
    (room.imposterId = some s ∨ room.host = s) →
    RoomChange w code (.event s .endGame) (endedRoom room)
  | reset (s : SocketId) (room : Room) :
    objGet w.rooms code = some room → code = sessionKey w s → room.host = s →
    RoomChange w code (.event s .playAgain) (resetRoom room)
  | rejoined (s : SocketId) (playerName : String) (room : Room) (existingPlayer : Player) :
    objGet w.rooms code = some room →
    room.players.find? (fun p => decide (p.name = playerName)) = some existingPlayer →
    RoomChange w code (.event s (.rejoinRoom code playerName))
      (rejoinedRoom room existingPlayer.id s playerName)
  | removed (x : SocketId) (room room1 : Room) :
    objGet w.disconnectTimers x = some code → objGet w.rooms code = some room →
    removePlayer room x = some room1 →
    RoomChange w code (.expiry x) room1

/-- Host consistency of a room: exactly one player of the list has `isHost =
true`, and `room.host` is the identity of that player. -/
def HostConsistent (room : Room) : Prop :=
  ∃ h, room.players.filter (fun p => p.isHost) = [h] ∧ room.host = h.id

/-- The requesting socket does not already hold a seat of the target room
under another name: every player of that room with the identity of the socket
has the name sent with `join-room` or `rejoin-room`. Other inputs are not
restricted. -/
def keepsSeat (w : World) : Input → Bool
  | .event s (.joinRoom roomCode playerName) =>
    match objGet w.rooms roomCode with
    | some room => room.players.all (fun p => decide (p.id = s → p.name = playerName))
    | none => true
  | .event s (.rejoinRoom roomCode playerName) =>
    match objGet w.rooms roomCode with
    | some room => room.players.all (fun p => decide (p.id = s → p.name = playerName))
    | none => true
  | _ => true

/-- Every input of a sequence run from `w` keeps seats, as long as the
handlers return. -/
def seatRespecting (w : World) : List Input → Bool
  | [] => true
  | i :: rest =>
    keepsSeat w i &&
      match step w i with
      | .ok (w1, _) => seatRespecting w1 rest
      | .error _ => true

/-- Identities and names of the players of a room are pairwise distinct and
the room is host consistent. -/
def RoomOk (room : Room) : Prop :=
  (room.players.map (fun p => p.id)).Nodup ∧ (room.players.map (fun p => p.name)).Nodup ∧
    HostConsistent room

/-- Socket 1 creates a room as `A` and joins it again as `B`; then a new
socket 3 sends `rejoin-room` with the name `B`. -/
def seatTakenInputs : List Input :=
  sharedSeatInputs ++ [.event 3 (.rejoinRoom "AAAAAA" "B")]

/-- The room after `seatTakenInputs`. -/
def seatTakenRoom : Room :=
  { host := 3,
    players := [{ id := 1, name := "A", isHost := true }, { id := 3, name := "B", isHost := false }],
    gameState := .lobby, category := none, secretWord := .null, imposterId := none, roles := [] }

/-- Socket 1 creates a room as `A`, socket 2 joins as `B`, socket 1
disconnects and its grace timer expires. -/
def hostLeavesInputs : List Input :=
  twoPlayerInputs ++ [.event 1 .disconnect, .expiry 1]

/-- The world after `hostLeavesInputs`: `B` is alone and host. -/
def hostLeftWorld : World :=
  oneRoomWorld
    { host := 2, players := [{ id := 2, name := "B", isHost := true }], gameState := .lobby,
      category := none, secretWord := .null, imposterId := none, roles := [] }
    [(1, seat "A"), (2, seat "B")]

/-- The room of `twoPlayerInputs` after `start-game` by the host with category
Movies, word draw 3 and imposter draw 0: `A` is the imposter. -/
def startedTwoPlayerRoom : Room :=
  { twoPlayerRoom with
    gameState := .playing, category := some "Movies", secretWord := .str "Inception",
    imposterId := some 1,
    roles := [(1, { isImposter := true, word := .null }),
              (2, { isImposter := false, word := .str "Inception" })] }

/-- The world of `twoPlayerInputs` after that `start-game`. -/
def startedTwoPlayerWorld : World :=
  oneRoomWorld startedTwoPlayerRoom [(1, seat "A"), (2, seat "B")]

/-- The room `startedTwoPlayerRoom` after socket 1, the host, sent
`rejoin-room` with the name `B`. -/
def hostTakesSeatRoom : Room :=
  { startedTwoPlayerRoom with
    players := [{ id := 1, name := "A", isHost := true }, { id := 1, name := "B", isHost := false }],
    roles := [(1, { isImposter := false, word := .str "Inception" })] }

/-- The world `startedTwoPlayerWorld` with the grace timer of socket 1
pending, as after its `disconnect`. -/
def hostAwayWorld : World :=
  { startedTwoPlayerWorld with disconnectTimers := [(1, "AAAAAA")] }

/-- The world of `twoPlayerInputs` after the `disconnect` of socket 1, the
host: its grace timer is pending. -/
def hostGoneWorld : World :=
  { twoPlayerWorld with disconnectTimers := [(1, "AAAAAA")] }

/-- The room of `twoPlayerInputs` after `start-game` by the host with the
category `constructor`, word draw 0 and imposter draw 0. -/
def constructorRoom : Room :=
  { twoPlayerRoom with
    gameState := .playing, category := some "constructor", secretWord := .undefined,
    imposterId := some 1,
    roles := [(1, { isImposter := true, word := .null }),
              (2, { isImposter := false, word := .undefined })] }

/-- The room of `twoPlayerInputs` after `end-game` by the host in the lobby. -/
def endedLobbyRoom : Room :=
  { twoPlayerRoom with gameState := .ended }

/-- A room in the lobby carries no data of a game: no category, no secret
word, no imposter and no roles. -/
def LobbyClean (room : Room) : Prop :=
  room.gameState = .lobby →
    room.category = none ∧ room.secretWord = .null ∧ room.imposterId = none ∧ room.roles = []

/-- Every stored role that says imposter has the word `null`. -/
def ImposterWordless (room : Room) : Prop :=
  ∀ k r, objGet room.roles k = some r → r.isImposter = true → r.word = .null

/-- No two players of the room have the same identity. -/
def DistinctIds (room : Room) : Prop :=
  (room.players.map (fun p => p.id)).Nodup

/-- Socket 1 creates a room as `A`, socket 2 joins as `B`, then socket 2
sends `rejoin-room` with the name `A` of the other player. -/
def memberRejoinsInputs : List Input :=
  twoPlayerInputs ++ [.event 2 (.rejoinRoom "AAAAAA" "A")]

/-- The room after `memberRejoinsInputs`: both players have the identity 2. -/
def memberRejoinedRoom : Room :=
  { host := 2,
    players := [{ id := 2, name := "A", isHost := true }, { id := 2, name := "B", isHost := false }],
    gameState := .lobby, category := none, secretWord := .null, imposterId := none, roles := [] }

/-- Socket 1 creates a room as `A`, socket 2 joins as `B` and disconnects,
and the player comes back on socket 3 with `rejoin-room` under the name `B`. -/
def guestReconnectsInputs : List Input :=
  twoPlayerInputs ++ [.event 2 .disconnect, .event 3 (.rejoinRoom "AAAAAA" "B")]

/-- The world after `guestReconnectsInputs`. -/
def guestReconnectedWorld : World :=
  oneRoomWorld
    { host := 1,
      players := [{ id := 1, name := "A", isHost := true },
                  { id := 3, name := "B", isHost := false }],
      gameState := .lobby, category := none, secretWord := .null, imposterId := none,
      roles := [] }
    [(1, seat "A"), (2, seat "B"), (3, seat "B")]

/-- Twelve players on sockets 1 to 12, named `A` to `L`; the first is host. -/
def twelvePlayers : List Player :=
  [{ id := 1, name := "A", isHost := true }, { id := 2, name := "B", isHost := false },
   { id := 3, name := "C", isHost := false }, { id := 4, name := "D", isHost := false },
   { id := 5, name := "E", isHost := false }, { id := 6, name := "F", isHost := false },
   { id := 7, name := "G", isHost := false }, { id := 8, name := "H", isHost := false },
   { id := 9, name := "I", isHost := false }, { id := 10, name := "J", isHost := false },
   { id := 11, name := "K", isHost := false }, { id := 12, name := "L", isHost := false }]

/-- Socket 1 creates a room as `A` and sockets 2 to 12 join it as `B` to `L`. -/
def fullRoomInputs : List Input :=
  [.event 1 (.createRoom "A" [0, 0, 0, 0, 0, 0]), .event 2 (.joinRoom "AAAAAA" "B"),
   .event 3 (.joinRoom "AAAAAA" "C"), .event 4 (.joinRoom "AAAAAA" "D"),
   .event 5 (.joinRoom "AAAAAA" "E"), .event 6 (.joinRoom "AAAAAA" "F"),
   .event 7 (.joinRoom "AAAAAA" "G"), .event 8 (.joinRoom "AAAAAA" "H"),
   .event 9 (.joinRoom "AAAAAA" "I"), .event 10 (.joinRoom "AAAAAA" "J"),
   .event 11 (.joinRoom "AAAAAA" "K"), .event 12 (.joinRoom "AAAAAA" "L")]

/-- The sessions after `fullRoomInputs`. -/
def twelveSessions : List (SocketId × Session) :=
  [(1, seat "A"), (2, seat "B"), (3, seat "C"), (4, seat "D"), (5, seat "E"), (6, seat "F"),
   (7, seat "G"), (8, seat "H"), (9, seat "I"), (10, seat "J"), (11, seat "K"), (12, seat "L")]

/-- The room after `fullRoomInputs`: twelve players, in the lobby. -/
def fullLobbyRoom : Room :=
  { host := 1, players := twelvePlayers, gameState := .lobby, category := none,
    secretWord := .null, imposterId := none, roles := [] }

/-- The room `fullLobbyRoom` after `start-game` by the host with category
Movies, word draw 3 and imposter draw 0. -/
def fullPlayingRoom : Room :=
  startedRoom fullLobbyRoom "Movies" (.str "Inception") 1

/-- Every stored role that says imposter is stored under the key
`room.imposterId`. -/
def ImposterKeyed (room : Room) : Prop :=
  ∀ k r, objGet room.roles k = some r → r.isImposter = true → room.imposterId = some k

/-- Socket 1 creates a room as `A`, socket 2 joins as `B`, the host starts a
game in which `A` is the imposter, and then socket 1 sends `rejoin-room` with
the name `B`. -/
def imposterTakesSeatInputs : List Input :=
  twoPlayerInputs ++
    [.event 1 (.startGame "Movies" 3 0), .event 1 (.rejoinRoom "AAAAAA" "B")]

/-- The role stored for the identity that `room.imposterId` names, when there
is one, is the imposter role `{isImposter: true, word: null}`. -/
def ImposterServed (room : Room) : Prop :=
  ∀ t r, room.imposterId = some t → objGet room.roles t = some r →
    r = { isImposter := true, word := .null }

/-- The input is not a `rejoin-room` event. -/
def noRejoin : Input → Bool
  | .event _ (.rejoinRoom _ _) => false
  | _ => true

/-! ## Dictionary lemmas -/

theorem objGet_objSet_same {κ β : Type} [DecidableEq κ] (o : List (κ × β)) (k : κ) (v : β) :
    objGet (objSet o k v) k = some v := by
  induction o with
  | nil => simp [objSet, objGet]
  | cons e rest ih =>
    obtain ⟨k', v'⟩ := e
    by_cases h : k' = k
    · simp [objSet, objGet, h]
    · simp [objSet, objGet, h, ih]

theorem objGet_objSet_other {κ β : Type} [DecidableEq κ] (o : List (κ × β)) (k k2 : κ) (v : β)
    (hk : k ≠ k2) : objGet (objSet o k v) k2 = objGet o k2 := by
  induction o with
  | nil => simp [objSet, objGet, hk]
  | cons e rest ih =>
    obtain ⟨k', v'⟩ := e
    by_cases h : k' = k
    · subst h
      simp [objSet, objGet, hk]
    · simp [objSet, objGet, h, ih]

theorem objGet_objDelete_same {κ β : Type} [DecidableEq κ] (o : List (κ × β)) (k : κ) :
    objGet (objDelete o k) k = none := by
  induction o with
  | nil => simp [objDelete, objGet]
  | cons e rest ih =>
    obtain ⟨k', v'⟩ := e
    by_cases h : k' = k
    · simpa [objDelete, List.filter_cons, h] using ih
    · simpa [objDelete, List.filter_cons, h, objGet] using ih

theorem objGet_objDelete_other {κ β : Type} [DecidableEq κ] (o : List (κ × β)) (k k2 : κ)
    (hk : k ≠ k2) : objGet (objDelete o k) k2 = objGet o k2 := by
  induction o with
  | nil => simp [objDelete, objGet]
  | cons e rest ih =>
    obtain ⟨k', v'⟩ := e
    by_cases h : k' = k
    · subst h
      simpa [objDelete, List.filter_cons, objGet, hk] using ih
    · by_cases h2 : k' = k2
      · subst h2
        simp [objDelete, List.filter_cons, h, objGet]
      · simpa [objDelete, List.filter_cons, h, objGet, h2] using ih

/-- Writing back the value already stored leaves the object as it is. -/
theorem objSet_objGet {κ β : Type} [DecidableEq κ] (o : List (κ × β)) (k : κ) (v : β)
    (h : objGet o k = some v) : objSet o k v = o := by
  induction o with
  | nil => simp [objGet] at h
  | cons e rest ih =>
    obtain ⟨k', v'⟩ := e
    by_cases hk : k' = k
    · subst hk
      simp [objGet] at h
      simp [objSet, h]
    · simp [objGet, hk] at h
      simp [objSet, hk, ih h]

theorem objSet_objSet {κ β : Type} [DecidableEq κ] (o : List (κ × β)) (k : κ) (v v2 : β) :
    objSet (objSet o k v) k v2 = objSet o k v2 := by
  induction o with
  | nil => simp [objSet]
  | cons e rest ih =>
    obtain ⟨k', v'⟩ := e
    by_cases hk : k' = k
    · simp [objSet, hk]
    · simp [objSet, hk, ih]

theorem jsLookup_own {β : Type} (o : List (String × β)) (k : String) (v : β) :
    jsLookup o k = .own v ↔ objGet o k = some v := by
  unfold jsLookup
  cases h : objGet o k with
  | none =>
    cases h2 : objGet objectPrototype k <;> simp
  | some v' => simp

theorem jsLookup_objSet_same {β : Type} (o : List (String × β)) (k : String) (v : β) :
    jsLookup (objSet o k v) k = .own v := by
  simp [jsLookup, objGet_objSet_same]

theorem jsLookup_objSet_other {β : Type} (o : List (String × β)) (k k2 : String) (v : β)
    (hk : k ≠ k2) : jsLookup (objSet o k v) k2 = jsLookup o k2 := by
  simp [jsLookup, objGet_objSet_other o k k2 v hk]

/-! ## The handler `start-game` -/

theorem objGet_foldl_roles (imp : SocketId) (sw : Word) (players : List Player) :
    ∀ (acc : List (SocketId × RoleAssignment)) (k : SocketId),
      objGet (players.foldl
        (fun roles p =>
          objSet roles p.id
            { isImposter := decide (p.id = imp),
              word := if p.id = imp then Word.null else sw }) acc) k
        = if k ∈ players.map (fun p => p.id) then
            some { isImposter := decide (k = imp), word := if k = imp then Word.null else sw }
          else objGet acc k := by
  induction players with
  | nil => intro acc k; simp
  | cons p rest ih =>
    intro acc k
    rw [List.foldl_cons, ih]
    by_cases hk : k ∈ rest.map (fun p => p.id)
    · simp [hk]
    · by_cases hp : p.id = k
      · subst hp
        simp [hk, objGet_objSet_same]
      · have hp2 : ¬ k = p.id := fun h => hp h.symm
        simp [hk, hp2, objGet_objSet_other _ _ _ _ hp]

/-- After `start-game` the role stored for the identity of any player of the
room says imposter exactly for the drawn identity. -/
theorem objGet_assignRoles (players : List Player) (imp : SocketId) (sw : Word) (p : Player)
    (hp : p ∈ players) :
    objGet (assignRoles players imp sw) p.id
      = some { isImposter := decide (p.id = imp), word := if p.id = imp then Word.null else sw } := by
  unfold assignRoles
  rw [objGet_foldl_roles]
  have : p.id ∈ players.map (fun p => p.id) := List.mem_map_of_mem _ hp
  simp [this]

theorem randomInt_lt (draw max i : Nat) (h : randomInt draw max = some i) : i < max := by
  unfold randomInt at h
  split at h
  · simp at h
  · rename_i hmax
    simp at h
    subst h
    exact Nat.mod_lt _ (Nat.pos_of_ne_zero hmax)

/-- What `start-game` does once its guards pass and the word draw returns. -/
theorem startGame_of_accepted (w : World) (s : SocketId) (category : String) (wd idr : Nat)
    (room : Room) (sw : Word) (h : StartAccepted w s category room)
    (hw : pickSecretWord (jsLookup CATEGORIES category) wd = .ok sw) :
    ∃ imp, room.players.get? (idr % room.players.length) = some imp ∧
      startGame w s category wd idr
        = .ok ({ w with
                  rooms := objSet w.rooms (sessionKey w s) (startedRoom room category sw imp.id) },
               [gameStarted (sessionKey w s) category]) := by
  obtain ⟨hroom, hhost, hstate, hcat, hlen⟩ := h
  have hlt : idr % room.players.length < room.players.length :=
    Nat.mod_lt _ (by omega)
  obtain ⟨imp, himp⟩ : ∃ imp, room.players.get? (idr % room.players.length) = some imp :=
    ⟨_, List.get?_eq_get hlt⟩
  refine ⟨imp, himp, ?_⟩
  have hne : room.players.length ≠ 0 := by omega
  have hnlt : ¬ room.players.length < 2 := by omega
  have himp2 : room.players[idr % room.players.length]? = some imp := by simpa using himp
  unfold startGame
  rw [hroom]
  simp only [hhost, hstate, ne_eq, not_true_eq_false, if_false]
  cases hc : jsLookup CATEGORIES category with
  | undefined => exact absurd hc hcat
  | own ws =>
    rw [hc] at hw
    simp [hnlt, hw, randomInt, hne, himp2, gameStarted]
  | inherited len =>
    rw [hc] at hw
    simp [hnlt, hw, randomInt, hne, himp2, gameStarted]

theorem startGame_of_accepted_error (w : World) (s : SocketId) (category : String)
    (wd idr : Nat) (room : Room) (e : Failure) (h : StartAccepted w s category room)
    (hw : pickSecretWord (jsLookup CATEGORIES category) wd = .error e) :
    startGame w s category wd idr = .error e := by
  obtain ⟨hroom, hhost, hstate, hcat, hlen⟩ := h
  have hnlt : ¬ room.players.length < 2 := by omega
  unfold startGame
  rw [hroom]
  simp only [hhost, hstate, ne_eq, not_true_eq_false, if_false]
  cases hc : jsLookup CATEGORIES category with
  | undefined => exact absurd hc hcat
  | own ws =>
    rw [hc] at hw
    simp [hnlt, hw]
  | inherited len =>
    rw [hc] at hw
    simp [hnlt, hw]

/-- The word drawn by `start-game` is never `null`; for an own category of the
catalog it is one of the strings of its list. -/
theorem pickSecretWord_ok (words : Lookup (List String)) (wd : Nat) (sw : Word)
    (h : pickSecretWord words wd = .ok sw) :
    sw ≠ .null ∧ ∀ ws, words = .own ws → ∃ word ∈ ws, sw = .str word := by
  cases words with
  | undefined => simp [pickSecretWord] at h
  | inherited len =>
    cases len with
    | none => simp [pickSecretWord] at h
    | some n =>
      simp only [pickSecretWord] at h
      cases hr : randomInt wd n with
      | none => simp [hr] at h
      | some i =>
        simp [hr] at h
        subst h
        simp
  | own ws =>
    simp only [pickSecretWord] at h
    cases hr : randomInt wd ws.length with
    | none => simp [hr] at h
    | some i =>
      have hlt := randomInt_lt _ _ _ hr
      have hget : ws.get? i = some (ws.get ⟨i, hlt⟩) := List.get?_eq_get hlt
      simp only [hr, hget] at h
      simp at h
      subst h
      refine ⟨by simp, ?_⟩
      intro ws2 hws
      cases hws
      exact ⟨_, List.getElem_mem _, rfl⟩

/-- Shape of the result of an accepted `start-game` that returned. -/
theorem startGame_accepted_ok (w : World) (s : SocketId) (category : String) (wd idr : Nat)
    (room : Room) (w1 : World) (out : List Emit) (hacc : StartAccepted w s category room)
    (hrun : startGame w s category wd idr = .ok (w1, out)) :
    ∃ sw imp, pickSecretWord (jsLookup CATEGORIES category) wd = .ok sw ∧
      room.players.get? (idr % room.players.length) = some imp ∧
      w1 = { w with
             rooms := objSet w.rooms (sessionKey w s) (startedRoom room category sw imp.id) } ∧
      out = [gameStarted (sessionKey w s) category] := by
  cases hw : pickSecretWord (jsLookup CATEGORIES category) wd with
  | error e =>
    rw [startGame_of_accepted_error w s category wd idr room e hacc hw] at hrun
    cases hrun
  | ok sw =>
    obtain ⟨imp, himp, heq⟩ := startGame_of_accepted w s category wd idr room sw hacc hw
    rw [heq] at hrun
    cases hrun
    exact ⟨sw, imp, rfl, himp, rfl, rfl⟩

/-- Roles of an accepted start on a room whose players have pairwise distinct
identities. -/
theorem rolesAssigned_startedRoom (room : Room) (category : String) (sw : Word) (imp : Player)
    (himp : imp ∈ room.players) (hsw : sw ≠ .null)
    (hids : (room.players.map (fun p => p.id)).Nodup) :
    RolesAssigned (startedRoom room category sw imp.id) := by
  have hinj : ∀ p ∈ room.players, p.id = imp.id → p = imp := fun p hp h =>
    List.inj_on_of_nodup_map hids hp himp h
  refine ⟨imp, himp, ?_, ?_, ?_⟩
  · intro p hp
    have hrole := objGet_assignRoles room.players imp.id sw p hp
    constructor
    · rintro ⟨r, hr, hri⟩
      have hr2 : objGet (assignRoles room.players imp.id sw) p.id = some r := hr
      rw [hrole] at hr2
      cases hr2
      exact hinj p hp (by simpa using hri)
    · intro h
      subst h
      exact ⟨_, hrole, by simp⟩
  · exact ⟨_, objGet_assignRoles room.players imp.id sw imp himp, by simp⟩
  · intro q hq hne
    have hqid : q.id ≠ imp.id := fun h => hne (hinj q hq h)
    refine ⟨_, objGet_assignRoles room.players imp.id sw q hq, ?_, ?_⟩
    · simpa [hqid] using hsw
    · simp [hqid, startedRoom]

theorem objGet_mem {κ β : Type} [DecidableEq κ] (o : List (κ × β)) (k : κ) (v : β)
    (h : objGet o k = some v) : (k, v) ∈ o := by
  induction o with
  | nil => simp [objGet] at h
  | cons e rest ih =>
    obtain ⟨k', v'⟩ := e
    by_cases hk : k' = k
    · subst hk
      simp [objGet] at h
      simp [h]
    · simp [objGet, hk] at h
      exact List.mem_cons_of_mem _ (ih h)

theorem objGet_isSome_of_mem_keys {κ β : Type} [DecidableEq κ] (o : List (κ × β)) (k : κ)
    (h : k ∈ o.map (fun e => e.1)) : ∃ v, objGet o k = some v := by
  induction o with
  | nil => simp at h
  | cons e rest ih =>
    obtain ⟨k', v'⟩ := e
    by_cases hk : k' = k
    · exact ⟨v', by simp [objGet, hk]⟩
    · have : k ∈ rest.map (fun e => e.1) := by
        simp only [List.map_cons, List.mem_cons] at h
        rcases h with h | h
        · exact absurd h.symm hk
        · exact h
      obtain ⟨v, hv⟩ := ih this
      exact ⟨v, by simp [objGet, hk, hv]⟩

theorem objGet_mem_keys {κ β : Type} [DecidableEq κ] (o : List (κ × β)) (k : κ) (v : β)
    (h : objGet o k = some v) : k ∈ o.map (fun e => e.1) :=
  List.mem_map_of_mem (fun e => e.1) (objGet_mem o k v h)

/-- Every category of the catalog has at least one word. -/
theorem categories_nonempty : ∀ e ∈ CATEGORIES, e.2 ≠ [] := by
  decide

/-- The word draw of `start-game` returns for every category name of the
catalog, whatever the draw. -/
theorem pickSecretWord_catalog (category : String) (wd : Nat)
    (h : category ∈ categoryNames) :
    ∃ ws word, objGet CATEGORIES category = some ws ∧ word ∈ ws ∧
      pickSecretWord (jsLookup CATEGORIES category) wd = .ok (.str word) := by
  obtain ⟨ws, hws⟩ := objGet_isSome_of_mem_keys CATEGORIES category h
  have hne : ws ≠ [] := categories_nonempty _ (objGet_mem _ _ _ hws)
  have hlen : ws.length ≠ 0 := by
    intro h0
    exact hne (List.length_eq_zero.mp h0)
  have hlt : wd % ws.length < ws.length := Nat.mod_lt _ (Nat.pos_of_ne_zero hlen)
  refine ⟨ws, ws.get ⟨wd % ws.length, hlt⟩, hws, List.getElem_mem _, ?_⟩
  have hl : jsLookup CATEGORIES category = .own ws := (jsLookup_own _ _ _).mpr hws
  have hget : ws.get? (wd % ws.length) = some (ws.get ⟨wd % ws.length, hlt⟩) :=
    List.get?_eq_get hlt
  rw [hl]
  simp only [pickSecretWord, randomInt, hlen, if_false, hget]

/-! ## C1: role assignment of a started game -/

/-- C1, counterexample. Socket 1 creates a room as `A` and then joins its own
room as `B`; its `start-game` is accepted (host, lobby, category Movies, two
players). In the started room both players have `roles[p.id].isImposter =
true`, so it is not the case that exactly one player is the imposter. -/
theorem start_game_shared_identity_two_imposters :
    run World.empty sharedSeatInputs = .ok (oneRoomWorld sharedSeatRoom [(1, seat "B")]) ∧
    StartAccepted (oneRoomWorld sharedSeatRoom [(1, seat "B")]) 1 "Movies" sharedSeatRoom ∧
    startGame (oneRoomWorld sharedSeatRoom [(1, seat "B")]) 1 "Movies" 3 0
      = .ok (oneRoomWorld sharedSeatStarted [(1, seat "B")], [gameStarted "AAAAAA" "Movies"]) ∧
    HasImposterRole sharedSeatStarted { id := 1, name := "A", isHost := true } ∧
    HasImposterRole sharedSeatStarted { id := 1, name := "B", isHost := false } ∧
    ¬ RolesAssigned sharedSeatStarted := by
  have hA : HasImposterRole sharedSeatStarted { id := 1, name := "A", isHost := true } :=
    ⟨{ isImposter := true, word := .null }, rfl, rfl⟩
  have hB : HasImposterRole sharedSeatStarted { id := 1, name := "B", isHost := false } :=
    ⟨{ isImposter := true, word := .null }, rfl, rfl⟩
  refine ⟨rfl, ⟨rfl, rfl, rfl, by decide, by decide⟩, rfl, hA, hB, ?_⟩
  rintro ⟨imp, -, hone, -⟩
  have h1 := (hone { id := 1, name := "A", isHost := true } (by simp [sharedSeatStarted, sharedSeatRoom])).mp hA
  have h2 := (hone { id := 1, name := "B", isHost := false } (by simp [sharedSeatStarted, sharedSeatRoom])).mp hB
  rw [← h2] at h1
  simp at h1

/-- C1, as amended. For every `start-game` whose guards pass (requester is
the host, room in the lobby, accepted category, at least two players) on a
room whose players have pairwise distinct identities, and for every word draw
and imposter draw: when the handler returns, the started room has exactly one
player with `roles[p.id].isImposter = true`, that player is the one at the
drawn index and `imposterId` is its identity, its word is `null`, and the word
of every other player is not `null` and equals `secretWord`; when the category
is a category name of the catalog the handler does return and `secretWord` is
one of the words of that category. -/
theorem start_game_roles_assigned (w : World) (s : SocketId) (category : String)
    (wd idr : Nat) (room : Room) (hacc : StartAccepted w s category room)
    (hids : (room.players.map (fun p => p.id)).Nodup) :
    (∀ w1 out, startGame w s category wd idr = .ok (w1, out) →
      ∃ room1 imp, objGet w1.rooms (sessionKey w s) = some room1 ∧
        room1.players = room.players ∧ RolesAssigned room1 ∧
        room.players.get? (idr % room.players.length) = some imp ∧
        room1.imposterId = some imp.id ∧ HasImposterRole room1 imp) ∧
    (category ∈ categoryNames →
      ∃ w1 room1 words word, startGame w s category wd idr
          = .ok (w1, [gameStarted (sessionKey w s) category]) ∧
        objGet w1.rooms (sessionKey w s) = some room1 ∧
        objGet CATEGORIES category = some words ∧ word ∈ words ∧
        room1.secretWord = .str word) := by
  constructor
  · intro w1 out hrun
    obtain ⟨sw, imp, hsw, himp, hw1, -⟩ :=
      startGame_accepted_ok w s category wd idr room w1 out hacc hrun
    have hmem : imp ∈ room.players := List.get?_mem himp
    subst hw1
    refine ⟨startedRoom room category sw imp.id, imp, objGet_objSet_same _ _ _, rfl,
      rolesAssigned_startedRoom room category sw imp hmem (pickSecretWord_ok _ _ _ hsw).1 hids,
      himp, rfl, ?_⟩
    exact ⟨_, objGet_assignRoles room.players imp.id sw imp hmem, by simp⟩
  · intro hcat
    obtain ⟨ws, word, hws, hword, hpick⟩ := pickSecretWord_catalog category wd hcat
    obtain ⟨imp, -, heq⟩ := startGame_of_accepted w s category wd idr room _ hacc hpick
    exact ⟨_, _, ws, word, heq, objGet_objSet_same _ _ _, hws, hword, rfl⟩

/-- C1, witness: the amended statement applied to the room of two sockets
created by `twoPlayerInputs`, started with category Movies and draws 3, 1. -/
theorem start_game_roles_assigned_witness :
    StartAccepted twoPlayerWorld 1 "Movies" twoPlayerRoom ∧
    (twoPlayerRoom.players.map (fun p => p.id)).Nodup ∧
    ((∀ w1 out, startGame twoPlayerWorld 1 "Movies" 3 1 = .ok (w1, out) →
      ∃ room1 imp, objGet w1.rooms (sessionKey twoPlayerWorld 1) = some room1 ∧
        room1.players = twoPlayerRoom.players ∧ RolesAssigned room1 ∧
        twoPlayerRoom.players.get? (1 % twoPlayerRoom.players.length) = some imp ∧
        room1.imposterId = some imp.id ∧ HasImposterRole room1 imp) ∧
    ("Movies" ∈ categoryNames →
      ∃ w1 room1 words word, startGame twoPlayerWorld 1 "Movies" 3 1
          = .ok (w1, [gameStarted (sessionKey twoPlayerWorld 1) "Movies"]) ∧
        objGet w1.rooms (sessionKey twoPlayerWorld 1) = some room1 ∧
        objGet CATEGORIES "Movies" = some words ∧ word ∈ words ∧
        room1.secretWord = .str word)) :=
  ⟨⟨rfl, rfl, rfl, by decide, by decide⟩, by decide,
    start_game_roles_assigned twoPlayerWorld 1 "Movies" 3 1 twoPlayerRoom
      ⟨rfl, rfl, rfl, by decide, by decide⟩ (by decide)⟩

/-! ## Effect of one input on the stored rooms -/

theorem objGet_objSet_cases {κ β : Type} [DecidableEq κ] (o : List (κ × β)) (k k2 : κ)
    (v v2 : β) (h : objGet (objSet o k v) k2 = some v2) :
    (k2 = k ∧ v2 = v) ∨ (k2 ≠ k ∧ objGet o k2 = some v2) := by
  by_cases hk : k = k2
  · subst hk
    rw [objGet_objSet_same] at h
    cases h
    exact Or.inl ⟨rfl, rfl⟩
  · rw [objGet_objSet_other _ _ _ _ hk] at h
    exact Or.inr ⟨fun e => hk e.symm, h⟩

theorem objGet_objDelete_some {κ β : Type} [DecidableEq κ] (o : List (κ × β)) (k k2 : κ)
    (v : β) (h : objGet (objDelete o k) k2 = some v) : k2 ≠ k ∧ objGet o k2 = some v := by
  by_cases hk : k = k2
  · subst hk
    rw [objGet_objDelete_same] at h
    cases h
  · rw [objGet_objDelete_other _ _ _ hk] at h
    exact ⟨fun e => hk e.symm, h⟩

/-- The code chosen by `create-room` is one for which `rooms[code]` is falsy,
so in particular not an own key of `rooms`. -/
theorem pickCode_fresh (rooms : List (RoomCode × Room)) (draws : List Nat) (code : String)
    (h : pickCode rooms draws = some code) :
    roomsTruthy rooms code = false ∧ objGet rooms code = none := by
  induction draws using pickCode.induct rooms with
  | case1 d0 d1 d2 d3 d4 d5 rest htruthy ih =>
    rw [pickCode, if_pos htruthy] at h
    exact ih h
  | case2 d0 d1 d2 d3 d4 d5 rest hfalsy =>
    rw [pickCode, if_neg hfalsy] at h
    cases h
    have hf : roomsTruthy rooms (randomCode d0 d1 d2 d3 d4 d5) = false := by
      simpa using hfalsy
    refine ⟨hf, ?_⟩
    cases hg : objGet rooms (randomCode d0 d1 d2 d3 d4 d5) with
    | none => rfl
    | some room =>
      simp [roomsTruthy, jsLookup, hg] at hf
  | case3 draws hshort =>
    unfold pickCode at h
    split at h
    · rename_i d0 d1 d2 d3 d4 d5 rest
      exact absurd rfl (hshort d0 d1 d2 d3 d4 d5 rest)
    · cases h

theorem createRoom_roomChange (w : World) (s : SocketId) (playerName : String)
    (draws : List Nat) (w1 : World) (out : List Emit)
    (h : createRoom w s playerName draws = .ok (w1, out)) (code : RoomCode) (room1 : Room)
    (h1 : objGet w1.rooms code = some room1) :
    RoomChange w code (.event s (.createRoom playerName draws)) room1 := by
  unfold createRoom at h
  split at h
  · cases h
  · rename_i code2 hpick
    cases h
    rcases objGet_objSet_cases _ _ _ _ _ h1 with ⟨rfl, rfl⟩ | ⟨-, hk⟩
    · exact .created s playerName draws (pickCode_fresh _ _ _ hpick).2
    · exact .kept _ _ hk

theorem joinRoom_roomChange (w : World) (s : SocketId) (roomCode playerName : String)
    (w1 : World) (out : List Emit)
    (h : joinRoom w s roomCode playerName = .ok (w1, out)) (code : RoomCode) (room1 : Room)
    (h1 : objGet w1.rooms code = some room1) :
    RoomChange w code (.event s (.joinRoom roomCode playerName)) room1 := by
  unfold joinRoom at h
  split at h
  · cases h; exact .kept _ _ h1
  · cases h; exact .kept _ _ h1
  · rename_i room hroom
    split at h
    · cases h; exact .kept _ _ h1
    · rename_i hstate
      split at h
      · cases h; exact .kept _ _ h1
      · rename_i hname
        split at h
        · cases h; exact .kept _ _ h1
        · rename_i hlen
          cases h
          rcases objGet_objSet_cases _ _ _ _ _ h1 with ⟨rfl, rfl⟩ | ⟨-, hk⟩
          · refine .joined s playerName room ((jsLookup_own _ _ _).mp hroom) ?_ ?_ ?_
            · simpa using hstate
            · intro p hp hpn
              apply hname
              simp only [List.any_eq_true, decide_eq_true_eq]
              exact ⟨p, hp, hpn⟩
            · omega
          · exact .kept _ _ hk

theorem startGame_ok_cases (w : World) (s : SocketId) (category : String) (wd idr : Nat)
    (w1 : World) (out : List Emit) (h : startGame w s category wd idr = .ok (w1, out)) :
    (w1 = w ∧ (out = [] ∨ ∃ m, out = [gameError s m])) ∨
    ∃ room, StartAccepted w s category room := by
  unfold startGame at h
  split at h
  · cases h; exact Or.inl ⟨rfl, Or.inr ⟨_, rfl⟩⟩
  · cases h; exact Or.inl ⟨rfl, Or.inl rfl⟩
  · rename_i room hroom
    split at h
    · cases h; exact Or.inl ⟨rfl, Or.inl rfl⟩
    · rename_i hhost
      split at h
      · cases h; exact Or.inl ⟨rfl, Or.inl rfl⟩
      · rename_i hstate
        split at h
        · cases h; exact Or.inl ⟨rfl, Or.inr ⟨_, rfl⟩⟩
        · rename_i hcat
          split at h
          · cases h; exact Or.inl ⟨rfl, Or.inr ⟨_, rfl⟩⟩
          · rename_i hlen
            refine Or.inr ⟨room, hroom, by simpa using hhost, by simpa using hstate, ?_, by omega⟩
            intro hc
            exact hcat hc

theorem startGame_roomChange (w : World) (s : SocketId) (category : String) (wd idr : Nat)
    (w1 : World) (out : List Emit)
    (h : startGame w s category wd idr = .ok (w1, out)) (code : RoomCode) (room1 : Room)
    (h1 : objGet w1.rooms code = some room1) :
    RoomChange w code (.event s (.startGame category wd idr)) room1 := by
  rcases startGame_ok_cases w s category wd idr w1 out h with ⟨rfl, -⟩ | ⟨room, hacc⟩
  · exact .kept _ _ h1
  · obtain ⟨sw, imp, hsw, himp, rfl, -⟩ :=
      startGame_accepted_ok w s category wd idr room w1 out hacc h
    rcases objGet_objSet_cases _ _ _ _ _ h1 with ⟨rfl, rfl⟩ | ⟨-, hk⟩
    · exact .started s category wd idr room sw imp hacc rfl hsw himp
    · exact .kept _ _ hk

theorem endGame_roomChange (w : World) (s : SocketId) (w1 : World) (out : List Emit)
    (h : endGame w s = .ok (w1, out)) (code : RoomCode) (room1 : Room)
    (h1 : objGet w1.rooms code = some room1) :
    RoomChange w code (.event s .endGame) room1 := by
  unfold endGame at h
  split at h
  · cases h; exact .kept _ _ h1
  · cases h; exact .kept _ _ h1
  · rename_i room hroom
    split at h
    · cases h; exact .kept _ _ h1
    · rename_i hauth
      cases h
      rcases objGet_objSet_cases _ _ _ _ _ h1 with ⟨rfl, rfl⟩ | ⟨-, hk⟩
      · refine .ended s room ((jsLookup_own _ _ _).mp hroom) rfl ?_
        by_cases hi : room.imposterId = some s
        · exact Or.inl hi
        · by_cases hh : room.host = s
          · exact Or.inr hh
          · exact absurd ⟨hi, hh⟩ hauth
      · exact .kept _ _ hk

theorem playAgain_roomChange (w : World) (s : SocketId) (w1 : World) (out : List Emit)
    (h : playAgain w s = .ok (w1, out)) (code : RoomCode) (room1 : Room)
    (h1 : objGet w1.rooms code = some room1) :
    RoomChange w code (.event s .playAgain) room1 := by
  unfold playAgain at h
  split at h
  · cases h; exact .kept _ _ h1
  · cases h; exact .kept _ _ h1
  · rename_i room hroom
    split at h
    · cases h; exact .kept _ _ h1
    · rename_i hhost
      cases h
      rcases objGet_objSet_cases _ _ _ _ _ h1 with ⟨rfl, rfl⟩ | ⟨-, hk⟩
      · exact .reset s room ((jsLookup_own _ _ _).mp hroom) rfl (by simpa using hhost)
      · exact .kept _ _ hk

theorem rejoinRoom_roomChange (w : World) (s : SocketId) (roomCode playerName : String)
    (w1 : World) (out : List Emit)
    (h : rejoinRoom w s roomCode playerName = .ok (w1, out)) (code : RoomCode) (room1 : Room)
    (h1 : objGet w1.rooms code = some room1) :
    RoomChange w code (.event s (.rejoinRoom roomCode playerName)) room1 := by
  unfold rejoinRoom at h
  split at h
  · cases h; exact .kept _ _ h1
  · cases h
  · rename_i room hroom
    split at h
    · cases h; exact .kept _ _ h1
    · rename_i existingPlayer hfind
      cases h
      rcases objGet_objSet_cases _ _ _ _ _ h1 with ⟨rfl, rfl⟩ | ⟨-, hk⟩
      · exact .rejoined s playerName room existingPlayer ((jsLookup_own _ _ _).mp hroom) hfind
      · exact .kept _ _ hk

theorem getMyRole_world (w : World) (s : SocketId) (w1 : World) (out : List Emit)
    (h : getMyRole w s = .ok (w1, out)) : w1 = w := by
  unfold getMyRole at h
  split at h
  · cases h; rfl
  · cases h
  · split at h <;> (cases h; rfl)

theorem chatMessage_world (w : World) (s : SocketId) (text : String) (w1 : World)
    (out : List Emit) (h : chatMessage w s text = .ok (w1, out)) : w1 = w := by
  unfold chatMessage at h
  simp only at h
  split at h
  · cases h; rfl
  · split at h <;> (cases h; rfl)
  · split at h
    · cases h; rfl
    · split at h <;> (cases h; rfl)

theorem disconnect_rooms (w : World) (s : SocketId) (w1 : World) (out : List Emit)
    (h : disconnect w s = .ok (w1, out)) : w1.rooms = w.rooms ∧ w1.sessions = w.sessions := by
  unfold disconnect at h
  split at h
  · cases h; exact ⟨rfl, rfl⟩
  · split at h
    · cases h; exact ⟨rfl, rfl⟩
    · split at h <;> (cases h; exact ⟨rfl, rfl⟩)

theorem timerExpired_roomChange (w : World) (x : SocketId) (w1 : World) (out : List Emit)
    (h : timerExpired w x = .ok (w1, out)) (code : RoomCode) (room1 : Room)
    (h1 : objGet w1.rooms code = some room1) :
    RoomChange w code (.expiry x) room1 := by
  unfold timerExpired at h
  split at h
  · cases h
  · rename_i roomCode htimer
    split at h
    · cases h; exact .kept _ _ h1
    · cases h
    · rename_i room hroom
      split at h
      · cases h
        exact .kept _ _ (objGet_objDelete_some _ _ _ _ h1).2
      · rename_i room2 hrem
        cases h
        rcases objGet_objSet_cases _ _ _ _ _ h1 with ⟨rfl, rfl⟩ | ⟨-, hk⟩
        · exact .removed x room room1 htimer ((jsLookup_own _ _ _).mp hroom) hrem
        · exact .kept _ _ hk

/-- Every room stored after one input is related to the world before by
`RoomChange`. -/
theorem step_roomChange (w : World) (i : Input) (w1 : World) (out : List Emit)
    (h : step w i = .ok (w1, out)) (code : RoomCode) (room1 : Room)
    (h1 : objGet w1.rooms code = some room1) : RoomChange w code i room1 := by
  cases i with
  | expiry x => exact timerExpired_roomChange w x w1 out h code room1 h1
  | event s e =>
    cases e with
    | createRoom playerName draws => exact createRoom_roomChange w s _ _ w1 out h code room1 h1
    | joinRoom roomCode playerName => exact joinRoom_roomChange w s _ _ w1 out h code room1 h1
    | startGame category wd idr => exact startGame_roomChange w s _ _ _ w1 out h code room1 h1
    | getMyRole =>
      have := getMyRole_world w s w1 out h
      subst this
      exact .kept _ _ h1
    | chatMessage text =>
      have := chatMessage_world w s text w1 out h
      subst this
      exact .kept _ _ h1
    | endGame => exact endGame_roomChange w s w1 out h code room1 h1
    | playAgain => exact playAgain_roomChange w s w1 out h code room1 h1
    | rejoinRoom roomCode playerName =>
      exact rejoinRoom_roomChange w s _ _ w1 out h code room1 h1
    | disconnect =>
      have := (disconnect_rooms w s w1 out h).1
      rw [this] at h1
      exact .kept _ _ h1

/-! ## C2: host consistency -/

/-- The first player with a given name splits the list; `remapFirst` rewrites
the identity of that player only. -/
theorem find_split (playerName : String) (s : SocketId) (players : List Player) (ex : Player)
    (h : players.find? (fun p => decide (p.name = playerName)) = some ex) :
    ∃ l1 l2, players = l1 ++ ex :: l2 ∧ ex.name = playerName ∧
      (∀ p ∈ l1, p.name ≠ playerName) ∧
      remapFirst playerName s players = l1 ++ { ex with id := s } :: l2 := by
  induction players with
  | nil => simp at h
  | cons p ps ih =>
    by_cases hp : p.name = playerName
    · simp [List.find?_cons, hp] at h
      subst h
      exact ⟨[], ps, rfl, hp, by simp, by simp [remapFirst, hp]⟩
    · simp [List.find?_cons, hp] at h
      obtain ⟨l1, l2, hsplit, hname, hl1, hremap⟩ := ih h
      refine ⟨p :: l1, l2, by simp [hsplit], hname, ?_, by simp [remapFirst, hp, hremap]⟩
      intro q hq
      rcases List.mem_cons.mp hq with rfl | hq
      · exact hp
      · exact hl1 q hq

theorem roomOk_newRoom (s : SocketId) (playerName : String) : RoomOk (newRoom s playerName) := by
  refine ⟨by simp [newRoom], by simp [newRoom],
    ⟨{ id := s, name := playerName, isHost := true }, ?_, rfl⟩⟩
  simp [newRoom]

theorem roomOk_joinedRoom (room : Room) (s : SocketId) (playerName : String) (h : RoomOk room)
    (hname : ∀ p ∈ room.players, p.name ≠ playerName)
    (hseat : ∀ p ∈ room.players, p.id = s → p.name = playerName) :
    RoomOk (joinedRoom room s playerName) := by
  obtain ⟨hids, hnames, host, hfilter, hhost⟩ := h
  refine ⟨?_, ?_, host, ?_, hhost⟩
  · simp only [joinedRoom, List.map_append, List.map_cons, List.map_nil]
    rw [List.nodup_append]
    refine ⟨hids, by simp, ?_⟩
    intro a ha hb
    simp only [List.mem_singleton] at hb
    subst hb
    obtain ⟨p, hp, hpid⟩ := List.mem_map.mp ha
    exact hname p hp (hseat p hp hpid)
  · simp only [joinedRoom, List.map_append, List.map_cons, List.map_nil]
    rw [List.nodup_append]
    refine ⟨hnames, by simp, ?_⟩
    intro a ha hb
    simp only [List.mem_singleton] at hb
    subst hb
    obtain ⟨p, hp, hpn⟩ := List.mem_map.mp ha
    exact hname p hp hpn
  · simp [joinedRoom, List.filter_append, hfilter]

theorem roomOk_rejoinedRoom (room : Room) (s : SocketId) (playerName : String) (ex : Player)
    (h : RoomOk room)
    (hfind : room.players.find? (fun p => decide (p.name = playerName)) = some ex)
    (hseat : ∀ p ∈ room.players, p.id = s → p.name = playerName) :
    RoomOk (rejoinedRoom room ex.id s playerName) := by
  obtain ⟨hids, hnames, host, hfilter, hhost⟩ := h
  obtain ⟨l1, l2, hsplit, hexname, hl1, hremap⟩ := find_split playerName s room.players ex hfind
  have hexmem : ex ∈ room.players := by rw [hsplit]; simp
  rw [hsplit] at hids hnames hfilter hseat
  simp only [List.map_append, List.map_cons] at hids hnames
  have hl2 : ∀ p ∈ l2, p.name ≠ playerName := by
    intro p hp hpn
    have hnd := (List.nodup_middle.mp hnames)
    rw [List.nodup_cons] at hnd
    apply hnd.1
    rw [hexname, ← hpn]
    exact List.mem_append_right _ (List.mem_map_of_mem _ hp)
  refine ⟨?_, ?_, ?_⟩
  · simp only [rejoinedRoom, hremap, List.map_append, List.map_cons]
    rw [List.nodup_middle, List.nodup_cons]
    refine ⟨?_, (List.nodup_cons.mp (List.nodup_middle.mp hids)).2⟩
    intro hmem
    rcases List.mem_append.mp hmem with hm | hm
    · obtain ⟨p, hp, hpid⟩ := List.mem_map.mp hm
      exact hl1 p hp (hseat p (by simp [hp]) hpid)
    · obtain ⟨p, hp, hpid⟩ := List.mem_map.mp hm
      exact hl2 p hp (hseat p (by simp [hp]) hpid)
  · simpa [rejoinedRoom, hremap] using hnames
  · by_cases hexh : ex.isHost = true
    · simp only [List.filter_append, List.filter_cons, hexh, if_true] at hfilter
      have h1 : l1.filter (fun p => p.isHost) = [] := by
        cases hl : l1.filter (fun p => p.isHost) with
        | nil => rfl
        | cons a t => rw [hl] at hfilter; simp at hfilter
      rw [h1] at hfilter
      simp only [List.nil_append, List.cons.injEq] at hfilter
      obtain ⟨hex, h2⟩ := hfilter
      subst hex
      refine ⟨{ ex with id := s }, ?_, ?_⟩
      · simp [rejoinedRoom, hremap, List.filter_append, List.filter_cons, hexh, h1, h2]
      · simp [rejoinedRoom, hhost]
    · have hfilter2 : (l1 ++ { ex with id := s } :: l2).filter (fun p => p.isHost) = [host] := by
        simp only [List.filter_append, List.filter_cons, hexh] at hfilter ⊢
        exact hfilter
      have hhostmem : host ∈ (l1 ++ ex :: l2).filter (fun p => p.isHost) := by
        rw [hfilter]; simp
      have hhostmem2 : host ∈ room.players := by
        rw [hsplit]; exact (List.mem_filter.mp hhostmem).1
      have hhostflag : host.isHost = true := (List.mem_filter.mp hhostmem).2
      have hne : host.id ≠ ex.id := by
        intro hid
        have hidsr : (room.players.map (fun p => p.id)).Nodup := by
          rw [hsplit]; simpa using hids
        have := List.inj_on_of_nodup_map hidsr hhostmem2 hexmem hid
        subst this
        exact hexh hhostflag
      refine ⟨host, ?_, ?_⟩
      · simpa [rejoinedRoom, hremap] using hfilter2
      · simp [rejoinedRoom, hhost, hne]

/-- Shape of the result of the timer callback on a room. -/
theorem removePlayer_some (room : Room) (x : SocketId) (room1 : Room)
    (h : removePlayer room x = some room1) :
    ∃ first rest, room.players.filter (fun p => decide (p.id ≠ x)) = first :: rest ∧
      room1.roles = objDelete room.roles x ∧ room1.gameState = room.gameState ∧
      room1.category = room.category ∧ room1.secretWord = room.secretWord ∧
      room1.imposterId = room.imposterId ∧
      ((room.host = x ∧ room1.host = first.id ∧
          room1.players = { first with isHost := true } :: rest) ∨
       (room.host ≠ x ∧ room1.host = room.host ∧ room1.players = first :: rest)) := by
  unfold removePlayer at h
  split at h
  · cases h
  · rename_i first rest hf
    refine ⟨first, rest, hf, ?_⟩
    split at h
    · rename_i hx
      cases h
      exact ⟨rfl, rfl, rfl, rfl, rfl, Or.inl ⟨hx, rfl, rfl⟩⟩
    · rename_i hx
      cases h
      exact ⟨rfl, rfl, rfl, rfl, rfl, Or.inr ⟨hx, rfl, rfl⟩⟩

theorem roomOk_removePlayer (room : Room) (x : SocketId) (room1 : Room) (h : RoomOk room)
    (hrem : removePlayer room x = some room1) : RoomOk room1 := by
  obtain ⟨hids, hnames, host, hfilter, hhost⟩ := h
  obtain ⟨first, rest, hf, -, -, -, -, -, hcase⟩ := removePlayer_some room x room1 hrem
  have hsub : (first :: rest).Sublist room.players := by
    rw [← hf]; exact List.filter_sublist _
  have hids1 : ((first :: rest).map (fun p => p.id)).Nodup :=
    List.Nodup.sublist (hsub.map _) hids
  have hnames1 : ((first :: rest).map (fun p => p.name)).Nodup :=
    List.Nodup.sublist (hsub.map _) hnames
  have hcomm : (first :: rest).filter (fun p => p.isHost)
      = [host].filter (fun p => decide (p.id ≠ x)) := by
    rw [← hf, ← hfilter, List.filter_filter, List.filter_filter]
    congr 1
    funext p
    exact Bool.and_comm _ _
  rcases hcase with ⟨hx, hh, hp⟩ | ⟨hx, hh, hp⟩
  · have hhx : host.id = x := by rw [← hhost]; exact hx
    have hnone : (first :: rest).filter (fun p => p.isHost) = [] := by
      rw [hcomm]; simp [hhx]
    have hfirst : first.isHost = false := by
      cases hfh : first.isHost with
      | false => rfl
      | true => simp [List.filter_cons, hfh] at hnone
    have hrest : rest.filter (fun p => p.isHost) = [] := by
      simpa [List.filter_cons, hfirst] using hnone
    refine ⟨by rw [hp]; simpa using hids1, by rw [hp]; simpa using hnames1,
      { first with isHost := true }, ?_, by rw [hh]⟩
    rw [hp]
    simp [List.filter_cons, hrest]
  · have hhx : host.id ≠ x := by rw [← hhost]; exact hx
    refine ⟨by rw [hp]; exact hids1, by rw [hp]; exact hnames1, host, ?_, by rw [hh, hhost]⟩
    rw [hp, hcomm]
    simp [hhx]

theorem keepsSeat_join (w : World) (s : SocketId) (roomCode playerName : String) (room : Room)
    (h : keepsSeat w (.event s (.joinRoom roomCode playerName)) = true)
    (hk : objGet w.rooms roomCode = some room) :
    ∀ p ∈ room.players, p.id = s → p.name = playerName := by
  simp only [keepsSeat, hk, List.all_eq_true, decide_eq_true_eq] at h
  exact h

theorem keepsSeat_rejoin (w : World) (s : SocketId) (roomCode playerName : String) (room : Room)
    (h : keepsSeat w (.event s (.rejoinRoom roomCode playerName)) = true)
    (hk : objGet w.rooms roomCode = some room) :
    ∀ p ∈ room.players, p.id = s → p.name = playerName := by
  simp only [keepsSeat, hk, List.all_eq_true, decide_eq_true_eq] at h
  exact h

/-- One input that keeps seats preserves `RoomOk` of every stored room. -/
theorem roomOk_step (w : World) (i : Input) (w1 : World) (out : List Emit)
    (hinv : ∀ code room, objGet w.rooms code = some room → RoomOk room)
    (hseat : keepsSeat w i = true) (h : step w i = .ok (w1, out)) :
    ∀ code room, objGet w1.rooms code = some room → RoomOk room := by
  intro code room1 h1
  have hc := step_roomChange w i w1 out h code room1 h1
  cases hc with
  | kept i room hk => exact hinv code _ hk
  | created s playerName draws hfresh => exact roomOk_newRoom s playerName
  | joined s playerName room hk hstate hname hlen =>
    exact roomOk_joinedRoom room s playerName (hinv code room hk) hname
      (keepsSeat_join w s code playerName room hseat hk)
  | started s category wd idr room sw imp hacc hcode hsw himp =>
    obtain ⟨hids, hnames, hhost⟩ :=
      hinv code room (by rw [hcode]; exact (jsLookup_own _ _ _).mp hacc.1)
    exact ⟨hids, hnames, hhost⟩
  | ended s room hk hcode hauth =>
    obtain ⟨hids, hnames, hhost⟩ := hinv code room hk
    exact ⟨hids, hnames, hhost⟩
  | reset s room hk hcode hauth =>
    obtain ⟨hids, hnames, hhost⟩ := hinv code room hk
    exact ⟨hids, hnames, hhost⟩
  | rejoined s playerName room ex hk hfind =>
    exact roomOk_rejoinedRoom room s playerName ex (hinv code room hk) hfind
      (keepsSeat_rejoin w s code playerName room hseat hk)
  | removed x room room1 htimer hk hrem =>
    exact roomOk_removePlayer room x room1 (hinv code room hk) hrem

/-- A run that keeps seats preserves `RoomOk` of every stored room. -/
theorem roomOk_run (inputs : List Input) :
    ∀ (w0 w : World), (∀ code room, objGet w0.rooms code = some room → RoomOk room) →
      seatRespecting w0 inputs = true → run w0 inputs = .ok w →
      ∀ code room, objGet w.rooms code = some room → RoomOk room := by
  induction inputs with
  | nil =>
    intro w0 w hinv _ hrun
    simp only [run] at hrun
    cases hrun
    exact hinv
  | cons i rest ih =>
    intro w0 w hinv hseat hrun
    simp only [seatRespecting, Bool.and_eq_true] at hseat
    simp only [run] at hrun
    cases hstep : step w0 i with
    | error e => simp [hstep] at hrun
    | ok res =>
      obtain ⟨w1, out⟩ := res
      simp only [hstep] at hrun hseat
      exact ih w1 w (roomOk_step w0 i w1 out hinv hseat.1 hstep) hseat.2 hrun

/-- C2, counterexample. Socket 1 creates a room as `A` and joins it again as
`B`; a new socket 3 then sends `rejoin-room` with the name `B`. The handler
finds `room.host` equal to the old identity of `B` and moves it to 3: in the
reached room the only player with `isHost = true` is `A` with identity 1,
while `room.host` is 3. -/
theorem rejoin_shared_identity_breaks_host :
    run World.empty seatTakenInputs
      = .ok (oneRoomWorld seatTakenRoom [(1, seat "B"), (3, seat "B")]) ∧
    seatTakenRoom.players.filter (fun p => p.isHost) = [{ id := 1, name := "A", isHost := true }] ∧
    seatTakenRoom.host = 3 ∧
    ¬ HostConsistent seatTakenRoom := by
  refine ⟨rfl, rfl, rfl, ?_⟩
  rintro ⟨h, hf, hh⟩
  have hf2 : [({ id := 1, name := "A", isHost := true } : Player)] = [h] := hf
  simp only [List.cons.injEq, and_true] at hf2
  subst hf2
  simp [seatTakenRoom] at hh

/-- C2, as amended. In every world reached from the start-up state by a
sequence of inputs (socket events and timer expiries) in which no `join-room`
or `rejoin-room` comes from a socket that already holds a seat of the target
room under another name, every stored room has exactly one player with
`isHost = true`, and `room.host` is the identity of that player. -/
theorem host_consistent_when_seats_kept (inputs : List Input) (w : World)
    (hrun : run World.empty inputs = .ok w)
    (hseat : seatRespecting World.empty inputs = true) :
    ∀ code room, objGet w.rooms code = some room → HostConsistent room := by
  intro code room h
  have hinv : ∀ code room, objGet World.empty.rooms code = some room → RoomOk room := by
    intro code room h0
    simp [World.empty, objGet] at h0
  exact (roomOk_run inputs World.empty w hinv hseat hrun code room h).2.2

/-- C2, witness: the amended statement on the run in which the host leaves
and the second player is promoted. -/
theorem host_consistent_when_seats_kept_witness :
    run World.empty hostLeavesInputs = .ok hostLeftWorld ∧
    seatRespecting World.empty hostLeavesInputs = true ∧
    ∀ code room, objGet hostLeftWorld.rooms code = some room → HostConsistent room :=
  ⟨rfl, rfl, host_consistent_when_seats_kept hostLeavesInputs hostLeftWorld rfl rfl⟩

/-! ## C3: the identity remap of `rejoin-room` -/

/-- What `rejoin-room` does when the room exists and a player has the name. -/
theorem rejoinRoom_of_found (w : World) (s : SocketId) (roomCode playerName : String)
    (room : Room) (ex : Player) (hk : objGet w.rooms roomCode = some room)
    (hfind : room.players.find? (fun p => decide (p.name = playerName)) = some ex) :
    rejoinRoom w s roomCode playerName
      = .ok ({ rooms := objSet w.rooms roomCode (rejoinedRoom room ex.id s playerName),
               disconnectTimers := objDelete w.disconnectTimers ex.id,
               sessions := objSet w.sessions s
                 { roomCode := some roomCode, playerName := some playerName } },
             [{ target := .socket s,
                payload := .rejoinedRoom roomCode
                  (rejoinedRoom room ex.id s playerName).players categoryNames
                  room.gameState room.category },
              { target := .room roomCode,
                payload := .playersUpdated (rejoinedRoom room ex.id s playerName).players }]) := by
  unfold rejoinRoom
  rw [(jsLookup_own _ _ _).mpr hk]
  simp only [hfind]

/-- A `rejoin-room` sent on the socket that is already the identity of the
matched player deletes the role of that player: the handler stores
`roles[old]` under the new key and then deletes the old key, which is the
same key. -/
theorem rejoin_same_socket_drops_role :
    objGet startedTwoPlayerRoom.roles 2 = some { isImposter := false, word := .str "Inception" } ∧
    ∃ w1 out room1, rejoinRoom startedTwoPlayerWorld 2 "AAAAAA" "B" = .ok (w1, out) ∧
      objGet w1.rooms "AAAAAA" = some room1 ∧ objGet room1.roles 2 = none :=
  ⟨rfl, _, _, _, rfl, rfl, rfl⟩

/-- C3, counterexample. In the started two-player room (host and imposter
`A` on socket 1, `B` on socket 2), socket 1 sends `rejoin-room` with the name
`B`: the matched player is `B`, old identity 2, new identity 1. Afterwards
`room.host` and `room.imposterId` are the new identity 1 although neither was
the old identity 2 before, so neither equivalence of the claim holds. -/
theorem rejoin_host_already_new :
    run World.empty (twoPlayerInputs ++ [.event 1 (.startGame "Movies" 3 0)])
      = .ok startedTwoPlayerWorld ∧
    startedTwoPlayerRoom.players.find? (fun p => decide (p.name = "B"))
      = some { id := 2, name := "B", isHost := false } ∧
    (∃ out, rejoinRoom startedTwoPlayerWorld 1 "AAAAAA" "B"
      = .ok (oneRoomWorld hostTakesSeatRoom [(1, seat "B"), (2, seat "B")], out)) ∧
    ¬ (hostTakesSeatRoom.host = 1 ↔ startedTwoPlayerRoom.host = 2) ∧
    ¬ (hostTakesSeatRoom.imposterId = some 1 ↔ startedTwoPlayerRoom.imposterId = some 2) := by
  refine ⟨rfl, rfl, ⟨_, rfl⟩, ?_, ?_⟩ <;> decide

/-- C3, as amended. For every successful `rejoin-room` (the room exists and
`existingPlayer` is the first player named `playerName`, with old identity
`existingPlayer.id`) from the socket `s`: afterwards the matched player has the
identity `s` and keeps its name, its `isHost` flag and its position, and every
other player is unchanged; `room.host` is `s` if it was the old identity and is
unchanged otherwise, and likewise `room.imposterId`; if `roles` had no entry
for the old identity it is unchanged, and if it had one and `s` differs from
the old identity, that entry is now stored under `s` and the old key is gone,
all other keys keeping their entries; the timer keyed by the old identity is
cancelled and no other timer is touched; `gameState`, `category`, `secretWord`
and every other room are unchanged. -/
theorem rejoin_remaps_identity (w : World) (s : SocketId) (roomCode playerName : String)
    (room : Room) (existingPlayer : Player) (hk : objGet w.rooms roomCode = some room)
    (hfind : room.players.find? (fun p => decide (p.name = playerName)) = some existingPlayer) :
    ∃ w1 out room1, rejoinRoom w s roomCode playerName = .ok (w1, out) ∧
      objGet w1.rooms roomCode = some room1 ∧
      (∃ l1 l2, room.players = l1 ++ existingPlayer :: l2 ∧
        (∀ p ∈ l1, p.name ≠ playerName) ∧
        room1.players = l1 ++ { id := s, name := existingPlayer.name,
                                isHost := existingPlayer.isHost } :: l2) ∧
      room1.host = (if room.host = existingPlayer.id then s else room.host) ∧
      room1.imposterId
        = (if room.imposterId = some existingPlayer.id then some s else room.imposterId) ∧
      (objGet room.roles existingPlayer.id = none → room1.roles = room.roles) ∧
      (∀ r, objGet room.roles existingPlayer.id = some r → existingPlayer.id ≠ s →
        objGet room1.roles s = some r ∧ objGet room1.roles existingPlayer.id = none) ∧
      (∀ k, k ≠ existingPlayer.id → k ≠ s → objGet room1.roles k = objGet room.roles k) ∧
      objGet w1.disconnectTimers existingPlayer.id = none ∧
      (∀ k, k ≠ existingPlayer.id →
        objGet w1.disconnectTimers k = objGet w.disconnectTimers k) ∧
      room1.gameState = room.gameState ∧ room1.category = room.category ∧
      room1.secretWord = room.secretWord ∧
      (∀ code, code ≠ roomCode → objGet w1.rooms code = objGet w.rooms code) := by
  obtain ⟨l1, l2, hsplit, -, hl1, hremap⟩ :=
    find_split playerName s room.players existingPlayer hfind
  refine ⟨_, _, rejoinedRoom room existingPlayer.id s playerName,
    rejoinRoom_of_found w s roomCode playerName room existingPlayer hk hfind,
    objGet_objSet_same _ _ _, ⟨l1, l2, hsplit, hl1, hremap⟩, rfl, rfl, ?_, ?_, ?_,
    objGet_objDelete_same _ _, ?_, rfl, rfl, rfl, ?_⟩
  · intro hnone
    simp [rejoinedRoom, remapRoles, hnone]
  · intro r hr hne
    simp only [rejoinedRoom, remapRoles, hr]
    exact ⟨by rw [objGet_objDelete_other _ _ _ hne, objGet_objSet_same],
      objGet_objDelete_same _ _⟩
  · intro k hk1 hk2
    simp only [rejoinedRoom, remapRoles]
    cases hr : objGet room.roles existingPlayer.id with
    | none => rfl
    | some r =>
      simp only
      rw [objGet_objDelete_other _ _ _ (fun e => hk1 e.symm),
        objGet_objSet_other _ _ _ _ (fun e => hk2 e.symm)]
  · intro k hk1
    exact objGet_objDelete_other _ _ _ (fun e => hk1 e.symm)
  · intro code hcode
    exact objGet_objSet_other _ _ _ _ (fun e => hcode e.symm)

/-- C3, witness: the host and imposter `A` of the started two-player room
left socket 1 (grace timer pending) and rejoins on socket 3. -/
theorem rejoin_remaps_identity_witness :
    objGet hostAwayWorld.rooms "AAAAAA" = some startedTwoPlayerRoom ∧
    startedTwoPlayerRoom.players.find? (fun p => decide (p.name = "A"))
      = some { id := 1, name := "A", isHost := true } ∧
    ∃ w1 out room1, rejoinRoom hostAwayWorld 3 "AAAAAA" "A" = .ok (w1, out) ∧
      objGet w1.rooms "AAAAAA" = some room1 ∧
      (∃ l1 l2, startedTwoPlayerRoom.players = l1 ++ { id := 1, name := "A", isHost := true } :: l2 ∧
        (∀ p ∈ l1, p.name ≠ "A") ∧
        room1.players = l1 ++ { id := 3, name := "A", isHost := true } :: l2) ∧
      room1.host = (if startedTwoPlayerRoom.host = 1 then 3 else startedTwoPlayerRoom.host) ∧
      room1.imposterId
        = (if startedTwoPlayerRoom.imposterId = some 1 then some 3
           else startedTwoPlayerRoom.imposterId) ∧
      (objGet startedTwoPlayerRoom.roles 1 = none → room1.roles = startedTwoPlayerRoom.roles) ∧
      (∀ r, objGet startedTwoPlayerRoom.roles 1 = some r → 1 ≠ 3 →
        objGet room1.roles 3 = some r ∧ objGet room1.roles 1 = none) ∧
      (∀ k, k ≠ 1 → k ≠ 3 → objGet room1.roles k = objGet startedTwoPlayerRoom.roles k) ∧
      objGet w1.disconnectTimers 1 = none ∧
      (∀ k, k ≠ 1 → objGet w1.disconnectTimers k = objGet hostAwayWorld.disconnectTimers k) ∧
      room1.gameState = startedTwoPlayerRoom.gameState ∧
      room1.category = startedTwoPlayerRoom.category ∧
      room1.secretWord = startedTwoPlayerRoom.secretWord ∧
      (∀ code, code ≠ "AAAAAA" → objGet w1.rooms code = objGet hostAwayWorld.rooms code) :=
  ⟨rfl, rfl,
    rejoin_remaps_identity hostAwayWorld 3 "AAAAAA" "A" startedTwoPlayerRoom
      { id := 1, name := "A", isHost := true } rfl rfl⟩

/-! ## C4: expiry of the grace timer -/

/-- C4. When the grace timer of identity `x` expires and the room of its
callback still exists: the players with identity `x` are removed and the
others keep their order (the new list is the old one filtered by `id ≠ x`);
if nobody remains the room is deleted from the registry; otherwise `roles[x]`
is deleted and no other role is touched, and if `x` was `room.host` the first
remaining player becomes `room.host` and gets `isHost = true`, while if `x`
was not `room.host` then `room.host` and every remaining player, flags
included, are unchanged. -/
theorem timer_expiry_removes_player (w : World) (x : SocketId) (roomCode : RoomCode)
    (room : Room) (htimer : objGet w.disconnectTimers x = some roomCode)
    (hk : objGet w.rooms roomCode = some room) :
    ∃ w1 out, timerExpired w x = .ok (w1, out) ∧
      (room.players.filter (fun p => decide (p.id ≠ x)) = [] →
        objGet w1.rooms roomCode = none) ∧
      (∀ first rest, room.players.filter (fun p => decide (p.id ≠ x)) = first :: rest →
        ∃ room1, objGet w1.rooms roomCode = some room1 ∧
          (∀ p ∈ room1.players, p.id ≠ x) ∧
          objGet room1.roles x = none ∧
          (∀ k, k ≠ x → objGet room1.roles k = objGet room.roles k) ∧
          (room.host = x →
            room1.host = first.id ∧ room1.players = { first with isHost := true } :: rest) ∧
          (room.host ≠ x → room1.host = room.host ∧ room1.players = first :: rest)) := by
  have hl : jsLookup w.rooms roomCode = .own room := (jsLookup_own _ _ _).mpr hk
  cases hrem : removePlayer room x with
  | none =>
    refine ⟨{ w with rooms := objDelete w.rooms roomCode,
                     disconnectTimers := objDelete w.disconnectTimers x }, [], ?_, ?_, ?_⟩
    · simp only [timerExpired, htimer, hl, hrem]
    · intro _
      exact objGet_objDelete_same _ _
    · intro first rest hf
      exfalso
      unfold removePlayer at hrem
      rw [hf] at hrem
      by_cases hx : room.host = x
      · simp [hx] at hrem
      · simp [hx] at hrem
  | some room1 =>
    obtain ⟨first, rest, hf, hroles, -, -, -, -, hcase⟩ := removePlayer_some room x room1 hrem
    refine ⟨{ w with rooms := objSet w.rooms roomCode room1,
                     disconnectTimers := objDelete w.disconnectTimers x },
      [{ target := .room roomCode, payload := .playersUpdated room1.players }], ?_, ?_, ?_⟩
    · simp only [timerExpired, htimer, hl, hrem]
    · intro hnil
      rw [hf] at hnil
      cases hnil
    · intro first2 rest2 hf2
      rw [hf] at hf2
      cases hf2
      have hmem : ∀ p ∈ first :: rest, p.id ≠ x := by
        intro p hp
        rw [← hf] at hp
        simpa using (List.mem_filter.mp hp).2
      refine ⟨room1, objGet_objSet_same _ _ _, ?_, ?_, ?_, ?_, ?_⟩
      · intro p hp
        rcases hcase with ⟨-, -, hpl⟩ | ⟨-, -, hpl⟩
        · rw [hpl] at hp
          rcases List.mem_cons.mp hp with rfl | hp
          · exact hmem first (by simp)
          · exact hmem p (List.mem_cons_of_mem _ hp)
        · rw [hpl] at hp
          exact hmem p hp
      · rw [hroles]; exact objGet_objDelete_same _ _
      · intro k hkx
        rw [hroles]; exact objGet_objDelete_other _ _ _ (fun e => hkx e.symm)
      · intro hx
        rcases hcase with ⟨-, hh, hpl⟩ | ⟨hne, -, -⟩
        · exact ⟨hh, hpl⟩
        · exact absurd hx hne
      · intro hx
        rcases hcase with ⟨he, -, -⟩ | ⟨-, hh, hpl⟩
        · exact absurd he hx
        · exact ⟨hh, hpl⟩

/-- C4, witness: the host of the two-player lobby left and its timer expires;
`B` is promoted. -/
theorem timer_expiry_removes_player_witness :
    objGet hostGoneWorld.disconnectTimers 1 = some "AAAAAA" ∧
    objGet hostGoneWorld.rooms "AAAAAA" = some twoPlayerRoom ∧
    ∃ w1 out, timerExpired hostGoneWorld 1 = .ok (w1, out) ∧
      (twoPlayerRoom.players.filter (fun p => decide (p.id ≠ 1)) = [] →
        objGet w1.rooms "AAAAAA" = none) ∧
      (∀ first rest, twoPlayerRoom.players.filter (fun p => decide (p.id ≠ 1)) = first :: rest →
        ∃ room1, objGet w1.rooms "AAAAAA" = some room1 ∧
          (∀ p ∈ room1.players, p.id ≠ 1) ∧
          objGet room1.roles 1 = none ∧
          (∀ k, k ≠ 1 → objGet room1.roles k = objGet twoPlayerRoom.roles k) ∧
          (twoPlayerRoom.host = 1 →
            room1.host = first.id ∧ room1.players = { first with isHost := true } :: rest) ∧
          (twoPlayerRoom.host ≠ 1 →
            room1.host = twoPlayerRoom.host ∧ room1.players = first :: rest)) :=
  ⟨rfl, rfl, timer_expiry_removes_player hostGoneWorld 1 "AAAAAA" twoPlayerRoom rfl rfl⟩

/-! ## Invariants of reachable worlds -/

/-- A property of rooms kept by every input holds in every stored room after
a run. -/
theorem rooms_invariant_run (P : Room → Prop)
    (hstep : ∀ w i w1 out, (∀ code room, objGet w.rooms code = some room → P room) →
      step w i = .ok (w1, out) → ∀ code room, objGet w1.rooms code = some room → P room)
    (inputs : List Input) :
    ∀ (w0 w : World), (∀ code room, objGet w0.rooms code = some room → P room) →
      run w0 inputs = .ok w → ∀ code room, objGet w.rooms code = some room → P room := by
  induction inputs with
  | nil =>
    intro w0 w hinv hrun
    simp only [run] at hrun
    cases hrun
    exact hinv
  | cons i rest ih =>
    intro w0 w hinv hrun
    simp only [run] at hrun
    cases hstep0 : step w0 i with
    | error e => simp [hstep0] at hrun
    | ok res =>
      obtain ⟨w1, out⟩ := res
      simp only [hstep0] at hrun
      exact ih w1 w (hstep w0 i w1 out hinv hstep0) hrun

theorem rooms_invariant_reachable (P : Room → Prop)
    (hstep : ∀ w i w1 out, (∀ code room, objGet w.rooms code = some room → P room) →
      step w i = .ok (w1, out) → ∀ code room, objGet w1.rooms code = some room → P room)
    (w : World) (hw : Reachable w) :
    ∀ code room, objGet w.rooms code = some room → P room := by
  obtain ⟨inputs, hrun⟩ := hw
  refine rooms_invariant_run P hstep inputs World.empty w ?_ hrun
  intro code room h0
  simp [World.empty, objGet] at h0

theorem remapFirst_length (playerName : String) (s : SocketId) (players : List Player) :
    (remapFirst playerName s players).length = players.length := by
  induction players with
  | nil => rfl
  | cons p ps ih =>
    by_cases hp : p.name = playerName
    · simp [remapFirst, hp]
    · simp [remapFirst, hp, ih]

/-- No reachable room has more than 12 players. -/
theorem reachable_room_capacity (w : World) (hw : Reachable w) (code : RoomCode) (room : Room)
    (h : objGet w.rooms code = some room) : room.players.length ≤ 12 := by
  refine rooms_invariant_reachable (fun room => room.players.length ≤ 12) ?_ w hw code room h
  intro w i w1 out hinv hstep code room1 h1
  have hc := step_roomChange w i w1 out hstep code room1 h1
  cases hc with
  | kept i room hk => exact hinv code _ hk
  | created s playerName draws hfresh => simp [newRoom]
  | joined s playerName room hk hstate hname hlen =>
    simp only [joinedRoom, List.length_append, List.length_singleton]
    omega
  | started s category wd idr room sw imp hacc hcode hsw himp =>
    exact hinv code room (by rw [hcode]; exact (jsLookup_own _ _ _).mp hacc.1)
  | ended s room hk hcode hauth => exact hinv code room hk
  | reset s room hk hcode hauth => exact hinv code room hk
  | rejoined s playerName room ex hk hfind =>
    simp only [rejoinedRoom, remapFirst_length]
    exact hinv code room hk
  | removed x room room1 htimer hk hrem =>
    obtain ⟨first, rest, hf, -, -, -, -, -, hcase⟩ := removePlayer_some room x room1 hrem
    have hle : (first :: rest).length ≤ room.players.length := by
      rw [← hf]; exact List.length_filter_le _ _
    have := hinv code room hk
    rcases hcase with ⟨-, -, hp⟩ | ⟨-, -, hp⟩ <;> rw [hp] <;> simp at hle ⊢ <;> omega

/-! ## C5: `join-room` -/

/-- C5, counterexample. Twelve sockets fill the room `AAAAAA` and the host
starts a game. A thirteenth socket then sends `join-room` with the unused
name `Z`: the room has 12 players and the name is unused, yet the reply is
not the room-full message but the game-in-progress one, because the handler
tests `gameState` before the name and the capacity. While the same room was
still in the lobby the same request got the room-full message. -/
theorem join_full_room_in_progress :
    run World.empty fullRoomInputs = .ok (oneRoomWorld fullLobbyRoom twelveSessions) ∧
    startGame (oneRoomWorld fullLobbyRoom twelveSessions) 1 "Movies" 3 0
      = .ok (oneRoomWorld fullPlayingRoom twelveSessions, [gameStarted "AAAAAA" "Movies"]) ∧
    fullPlayingRoom.players.length = 12 ∧
    (∀ p ∈ fullPlayingRoom.players, p.name ≠ "Z") ∧
    joinRoom (oneRoomWorld fullPlayingRoom twelveSessions) 13 "AAAAAA" "Z"
      = .ok (oneRoomWorld fullPlayingRoom twelveSessions,
             [{ target := .socket 13,
                payload := .gameError "A game is already in progress in this room." }]) ∧
    joinRoom (oneRoomWorld fullLobbyRoom twelveSessions) 13 "AAAAAA" "Z"
      = .ok (oneRoomWorld fullLobbyRoom twelveSessions,
             [{ target := .socket 13,
                payload := .gameError "Room is full (max 12 players)." }]) := by
  refine ⟨rfl, rfl, rfl, by decide, rfl, rfl⟩

/-- C5, as amended. For every world, socket, room code and name, `join-room`
either (a) leaves the whole world unchanged and emits exactly one event, a
`game-error` addressed to the requesting socket, which is the case exactly
when the registry has no room under the code (message room-not-found, or
game-in-progress when the code is a property name of `Object.prototype`), or
the room is not in the lobby (message game-in-progress), or the room is in
the lobby and a player already has exactly that name (message name-taken), or
the room is in the lobby, the name is unused and the room has 12 players
(message `Room is full (max 12 players).`); or (b) stores the room with the
one player `{id: s, name, isHost: false}` appended at the end of `players` and
nothing else of the room or of any other room changed, and emits `room-joined`
to the requester and `players-updated` to the room. Reachable rooms never have
more than 12 players, so the capacity test `length >= 12` of the handler means
exactly 12 there. -/
theorem join_room_outcome (w : World) (s : SocketId) (roomCode playerName : String) :
    ((∃ message,
        joinRoom w s roomCode playerName
          = .ok (w, [{ target := .socket s, payload := .gameError message }]) ∧
        ((objGet w.rooms roomCode = none ∧ objGet objectPrototype roomCode = none ∧
            message = "Room not found. Check the code and try again.") ∨
          (objGet w.rooms roomCode = none ∧ (∃ len, objGet objectPrototype roomCode = some len) ∧
            message = "A game is already in progress in this room.") ∨
          ∃ room, objGet w.rooms roomCode = some room ∧
            ((room.gameState ≠ .lobby ∧
                message = "A game is already in progress in this room.") ∨
              (room.gameState = .lobby ∧ (∃ p ∈ room.players, p.name = playerName) ∧
                message = "That name is already taken. Pick a different name.") ∨
              (room.gameState = .lobby ∧ (∀ p ∈ room.players, p.name ≠ playerName) ∧
                12 ≤ room.players.length ∧ message = "Room is full (max 12 players)."))))
      ∨
      (∃ room w1, objGet w.rooms roomCode = some room ∧ room.gameState = .lobby ∧
        (∀ p ∈ room.players, p.name ≠ playerName) ∧ room.players.length < 12 ∧
        joinRoom w s roomCode playerName
          = .ok (w1,
              [{ target := .socket s,
                 payload := .roomJoined roomCode
                   (room.players ++ [{ id := s, name := playerName, isHost := false }])
                   categoryNames },
               { target := .room roomCode,
                 payload := .playersUpdated
                   (room.players ++ [{ id := s, name := playerName, isHost := false }]) }]) ∧
        objGet w1.rooms roomCode
          = some { room with
                   players := room.players ++ [{ id := s, name := playerName, isHost := false }] } ∧
        (∀ code, code ≠ roomCode → objGet w1.rooms code = objGet w.rooms code) ∧
        w1.disconnectTimers = w.disconnectTimers)) ∧
    (Reachable w → ∀ room, objGet w.rooms roomCode = some room → room.players.length ≤ 12) := by
  refine ⟨?_, fun hw room h => reachable_room_capacity w hw roomCode room h⟩
  cases hk : objGet w.rooms roomCode with
  | none =>
    left
    cases hp : objGet objectPrototype roomCode with
    | none =>
      exact ⟨"Room not found. Check the code and try again.",
        by simp [joinRoom, jsLookup, hk, hp, gameError], Or.inl ⟨rfl, rfl, rfl⟩⟩
    | some len =>
      exact ⟨"A game is already in progress in this room.",
        by simp [joinRoom, jsLookup, hk, hp, gameError], Or.inr (Or.inl ⟨rfl, ⟨len, rfl⟩, rfl⟩)⟩
  | some room =>
    have hl : jsLookup w.rooms roomCode = .own room := (jsLookup_own _ _ _).mpr hk
    by_cases hstate : room.gameState = .lobby
    · by_cases hname : ∃ p ∈ room.players, p.name = playerName
      · left
        have hany : room.players.any (fun p => decide (p.name = playerName)) = true := by
          simpa using hname
        exact ⟨"That name is already taken. Pick a different name.",
          by simp only [joinRoom, hl, hstate, hany]; simp [gameError],
          Or.inr (Or.inr ⟨room, rfl, Or.inr (Or.inl ⟨hstate, hname, rfl⟩)⟩)⟩
      · have hany : ¬ room.players.any (fun p => decide (p.name = playerName)) = true := by
          simpa using hname
        have hfree : ∀ p ∈ room.players, p.name ≠ playerName := fun p hp hpn =>
          hname ⟨p, hp, hpn⟩
        by_cases hlen : room.players.length ≥ 12
        · left
          exact ⟨"Room is full (max 12 players).",
            by simp only [joinRoom, hl, hstate, hany, hlen]; simp [gameError],
            Or.inr (Or.inr ⟨room, rfl, Or.inr (Or.inr ⟨hstate, hfree, hlen, rfl⟩)⟩)⟩
        · right
          refine ⟨room,
            { w with
              rooms := objSet w.rooms roomCode (joinedRoom room s playerName),
              sessions := objSet w.sessions s
                { roomCode := some roomCode, playerName := some playerName } },
            rfl, hstate, hfree, by omega,
            by simp only [joinRoom, hl, hstate, hany, hlen]; simp [joinedRoom],
            objGet_objSet_same _ _ _, ?_, rfl⟩
          intro code hcode
          exact objGet_objSet_other _ _ _ _ (fun e => hcode e.symm)
    · left
      exact ⟨"A game is already in progress in this room.",
        by simp only [joinRoom, hl]; simp [hstate, gameError],
        Or.inr (Or.inr ⟨room, rfl, Or.inl ⟨hstate, rfl⟩⟩)⟩

/-! ## C6: the guards of `start-game` -/

/-- C6, the code at the failing input. In the two-player lobby the host sends
`start-game` with the category `constructor`, which is not a category name of
the catalog: `CATEGORIES[category]` finds `Object.prototype.constructor`, a
function, so the guard `!CATEGORIES[category]` passes; `words.length` is 1 and
`words[0]` is `undefined`. The room changes: it is now playing, with category
`constructor` and `secretWord` `undefined`, and `game-started` is broadcast. -/
theorem start_game_accepts_inherited_category :
    run World.empty twoPlayerInputs = .ok twoPlayerWorld ∧
    "constructor" ∉ categoryNames ∧
    jsLookup CATEGORIES "constructor" = .inherited (some 1) ∧
    startGame twoPlayerWorld 1 "constructor" 0 0
      = .ok (oneRoomWorld constructorRoom [(1, seat "A"), (2, seat "B")],
             [gameStarted "AAAAAA" "constructor"]) ∧
    constructorRoom.gameState = .playing ∧
    constructorRoom.secretWord = .undefined := by
  refine ⟨rfl, by decide, rfl, rfl, rfl, rfl⟩

/-! ## C7: unauthorized requests -/

/-- C7. For every socket whose session names an existing room: if the socket
is not `room.host`, its `start-game` (any category, any draws) and its
`play-again` leave the whole world unchanged and emit nothing; if moreover it
is not `room.imposterId`, its `end-game` leaves the whole world unchanged and
emits nothing. -/
theorem unauthorized_actions_are_silent (w : World) (s : SocketId) (room : Room)
    (hroom : objGet w.rooms (sessionKey w s) = some room) (hhost : room.host ≠ s) :
    (∀ category wd idr, startGame w s category wd idr = .ok (w, [])) ∧
    playAgain w s = .ok (w, []) ∧
    (room.imposterId ≠ some s → endGame w s = .ok (w, [])) := by
  have hl : jsLookup w.rooms (sessionKey w s) = .own room := (jsLookup_own _ _ _).mpr hroom
  refine ⟨?_, ?_, ?_⟩
  · intro category wd idr
    simp [startGame, hl, hhost]
  · simp [playAgain, hl, hhost]
  · intro himp
    simp [endGame, hl, hhost, himp]

/-- C7, witness: socket 2, neither host nor imposter of the started
two-player room. -/
theorem unauthorized_actions_are_silent_witness :
    objGet startedTwoPlayerWorld.rooms (sessionKey startedTwoPlayerWorld 2)
      = some startedTwoPlayerRoom ∧
    startedTwoPlayerRoom.host ≠ 2 ∧
    ((∀ category wd idr,
        startGame startedTwoPlayerWorld 2 category wd idr = .ok (startedTwoPlayerWorld, [])) ∧
      playAgain startedTwoPlayerWorld 2 = .ok (startedTwoPlayerWorld, []) ∧
      (startedTwoPlayerRoom.imposterId ≠ some 2 →
        endGame startedTwoPlayerWorld 2 = .ok (startedTwoPlayerWorld, []))) :=
  ⟨rfl, by decide,
    unauthorized_actions_are_silent startedTwoPlayerWorld 2 startedTwoPlayerRoom rfl (by decide)⟩

/-! ## C8: transitions of `gameState` -/

/-- C8, the code at the failing input. The host of the two-player room sends
`end-game` while the room is in the lobby: `gameState` goes from lobby to
ended, a transition the claim excludes; `end-game` has no test of `gameState`,
unlike `start-game`, `join-room` and `chat-message`. The last equation records
that `play-again` has no such test either: sent by the host while the game is
being played it takes the room from playing to the lobby, which is the path of
the round trip `start-game`, `play-again`. -/
theorem end_game_and_play_again_ignore_state :
    run World.empty twoPlayerInputs = .ok twoPlayerWorld ∧
    twoPlayerRoom.gameState = .lobby ∧
    endGame twoPlayerWorld 1
      = .ok (oneRoomWorld endedLobbyRoom [(1, seat "A"), (2, seat "B")],
             [{ target := .room "AAAAAA", payload := .gameEnded .null "Unknown" none }]) ∧
    endedLobbyRoom.gameState = .ended ∧
    startedTwoPlayerRoom.gameState = .playing ∧
    playAgain startedTwoPlayerWorld 1
      = .ok (twoPlayerWorld,
             [{ target := .room "AAAAAA",
                payload := .resetGame twoPlayerRoom.players categoryNames }]) := by
  refine ⟨rfl, rfl, rfl, rfl, rfl, rfl⟩

/-- The transitions of `gameState` the handlers do implement: an input changes
the `gameState` of a stored room only as `start-game` from the lobby to
playing, as `end-game` of the host or the imposter from any state to ended, or
as `play-again` of the host from any state to the lobby. -/
theorem gameState_change_cases (w : World) (i : Input) (w1 : World) (out : List Emit)
    (h : step w i = .ok (w1, out)) (code : RoomCode) (room room1 : Room)
    (hk : objGet w.rooms code = some room) (h1 : objGet w1.rooms code = some room1)
    (hne : room1.gameState ≠ room.gameState) :
    (∃ s category wd idr, i = .event s (.startGame category wd idr) ∧ room.host = s ∧
      room.gameState = .lobby ∧ room1.gameState = .playing) ∨
    (∃ s, i = .event s .endGame ∧ (room.imposterId = some s ∨ room.host = s) ∧
      room1.gameState = .ended) ∨
    (∃ s, i = .event s .playAgain ∧ room.host = s ∧ room1.gameState = .lobby) := by
  have hc := step_roomChange w i w1 out h code room1 h1
  cases hc with
  | kept i room2 hk2 =>
    rw [hk] at hk2
    cases hk2
    exact absurd rfl hne
  | created s playerName draws hfresh =>
    rw [hk] at hfresh
    cases hfresh
  | joined s playerName room2 hk2 hstate hname hlen =>
    rw [hk] at hk2
    cases hk2
    exact absurd rfl hne
  | started s category wd idr room2 sw imp hacc hcode hsw himp =>
    have hk2 : objGet w.rooms code = some room2 := by
      rw [hcode]; exact (jsLookup_own _ _ _).mp hacc.1
    rw [hk] at hk2
    cases hk2
    exact Or.inl ⟨s, category, wd, idr, rfl, hacc.2.1, hacc.2.2.1, rfl⟩
  | ended s room2 hk2 hcode hauth =>
    rw [hk] at hk2
    cases hk2
    exact Or.inr (Or.inl ⟨s, rfl, hauth, rfl⟩)
  | reset s room2 hk2 hcode hauth =>
    rw [hk] at hk2
    cases hk2
    exact Or.inr (Or.inr ⟨s, rfl, hauth, rfl⟩)
  | rejoined s playerName room2 ex hk2 hfind =>
    rw [hk] at hk2
    cases hk2
    exact absurd rfl hne
  | removed x room2 room3 htimer hk2 hrem =>
    rw [hk] at hk2
    cases hk2
    obtain ⟨first, rest, -, -, hstate, -⟩ := removePlayer_some room x room1 hrem
    exact absurd hstate hne

/-- Every reachable room in the lobby is clean. -/
theorem reachable_lobby_clean (w : World) (hw : Reachable w) (code : RoomCode) (room : Room)
    (h : objGet w.rooms code = some room) : LobbyClean room := by
  refine rooms_invariant_reachable LobbyClean ?_ w hw code room h
  intro w i w1 out hinv hstep code room1 h1
  have hc := step_roomChange w i w1 out hstep code room1 h1
  cases hc with
  | kept i room hk => exact hinv code _ hk
  | created s playerName draws hfresh =>
    intro _
    exact ⟨rfl, rfl, rfl, rfl⟩
  | joined s playerName room hk hstate hname hlen =>
    intro _
    exact hinv code room hk hstate
  | started s category wd idr room sw imp hacc hcode hsw himp =>
    intro hl
    simp [startedRoom] at hl
  | ended s room hk hcode hauth =>
    intro hl
    simp [endedRoom] at hl
  | reset s room hk hcode hauth =>
    intro _
    exact ⟨rfl, rfl, rfl, rfl⟩
  | rejoined s playerName room ex hk hfind =>
    intro hl
    obtain ⟨hc, hs, hi, hr⟩ := hinv code room hk hl
    refine ⟨hc, hs, ?_, ?_⟩
    · simp [rejoinedRoom, hi]
    · simp [rejoinedRoom, remapRoles, hr, objGet]
  | removed x room room1 htimer hk hrem =>
    intro hl
    obtain ⟨first, rest, hf, hroles, hstate, hcat, hsec, himp, -⟩ :=
      removePlayer_some room x room1 hrem
    obtain ⟨hc, hs, hi, hr⟩ := hinv code room hk (by rw [← hstate]; exact hl)
    refine ⟨by rw [hcat, hc], by rw [hsec, hs], by rw [himp, hi], ?_⟩
    rw [hroles, hr]
    rfl

/-! ## C9: `start-game` followed by `play-again` -/

/-- C9. For every room in the lobby on which the `start-game` of its host is
accepted and returns (any accepted category, any draws), a following
`play-again` of the host returns and leaves a room with `gameState = lobby`,
`category = null`, `secretWord = null`, `imposterId = null` and empty `roles`,
whose `players` list and `host` are those before `start-game`; every other
room is as before. In a reachable world the room, and the whole world, equal
their state before `start-game`. -/
theorem start_then_play_again_restores (w : World) (s : SocketId) (category : String)
    (wd idr : Nat) (room : Room) (w1 : World) (out : List Emit)
    (hacc : StartAccepted w s category room)
    (hstart : startGame w s category wd idr = .ok (w1, out)) :
    ∃ w2 room2,
      playAgain w1 s
        = .ok (w2, [{ target := .room (sessionKey w s),
                      payload := .resetGame room.players categoryNames }]) ∧
      objGet w2.rooms (sessionKey w s) = some room2 ∧
      room2.gameState = .lobby ∧ room2.category = none ∧ room2.secretWord = .null ∧
      room2.imposterId = none ∧ room2.roles = [] ∧
      room2.players = room.players ∧ room2.host = room.host ∧
      (∀ code, code ≠ sessionKey w s → objGet w2.rooms code = objGet w.rooms code) ∧
      (Reachable w → room2 = room ∧ w2 = w) := by
  obtain ⟨sw, imp, -, -, hw1, -⟩ := startGame_accepted_ok w s category wd idr room w1 out hacc hstart
  obtain ⟨hroom, hhost, hstate, -, -⟩ := hacc
  have hk : objGet w.rooms (sessionKey w s) = some room := (jsLookup_own _ _ _).mp hroom
  subst hw1
  refine ⟨{ w with
            rooms := objSet w.rooms (sessionKey w s)
              (resetRoom (startedRoom room category sw imp.id)) },
    resetRoom (startedRoom room category sw imp.id), ?_, objGet_objSet_same _ _ _,
    rfl, rfl, rfl, rfl, rfl, rfl, rfl, ?_, ?_⟩
  · have hkey : sessionKey
        { w with
          rooms := objSet w.rooms (sessionKey w s) (startedRoom room category sw imp.id) } s
        = sessionKey w s := rfl
    simp only [playAgain, hkey, jsLookup_objSet_same]
    have hh : (startedRoom room category sw imp.id).host = s := hhost
    simp [hh, objSet_objSet, startedRoom, hhost]
  · intro code hcode
    exact objGet_objSet_other _ _ _ _ (fun e => hcode e.symm)
  · intro hreach
    obtain ⟨hc, hs, hi, hr⟩ := reachable_lobby_clean w hreach _ room hk hstate
    have hroom2 : resetRoom (startedRoom room category sw imp.id) = room := by
      cases room
      simp only [resetRoom, startedRoom] at *
      simp [hstate, hc, hs, hi, hr]
    refine ⟨hroom2, ?_⟩
    rw [hroom2, objSet_objGet _ _ _ hk]

/-- C9, witness: the host of the two-player lobby starts a game with category
Movies and then sends `play-again`. -/
theorem start_then_play_again_restores_witness :
    StartAccepted twoPlayerWorld 1 "Movies" twoPlayerRoom ∧
    startGame twoPlayerWorld 1 "Movies" 3 0
      = .ok (startedTwoPlayerWorld, [gameStarted "AAAAAA" "Movies"]) ∧
    ∃ w2 room2,
      playAgain startedTwoPlayerWorld 1
        = .ok (w2, [{ target := .room (sessionKey twoPlayerWorld 1),
                      payload := .resetGame twoPlayerRoom.players categoryNames }]) ∧
      objGet w2.rooms (sessionKey twoPlayerWorld 1) = some room2 ∧
      room2.gameState = .lobby ∧ room2.category = none ∧ room2.secretWord = .null ∧
      room2.imposterId = none ∧ room2.roles = [] ∧
      room2.players = twoPlayerRoom.players ∧ room2.host = twoPlayerRoom.host ∧
      (∀ code, code ≠ sessionKey twoPlayerWorld 1 →
        objGet w2.rooms code = objGet twoPlayerWorld.rooms code) ∧
      (Reachable twoPlayerWorld → room2 = twoPlayerRoom ∧ w2 = twoPlayerWorld) :=
  ⟨⟨rfl, rfl, rfl, by decide, by decide⟩, rfl,
    start_then_play_again_restores twoPlayerWorld 1 "Movies" 3 0 twoPlayerRoom
      startedTwoPlayerWorld [gameStarted "AAAAAA" "Movies"]
      ⟨rfl, rfl, rfl, by decide, by decide⟩ rfl⟩

/-! ## C10: role privacy -/

/-- Whether the word draw of `start-game` returns does not depend on the draw. -/
theorem pickSecretWord_draws (words : Lookup (List String)) (a c : Nat) (sw : Word)
    (h : pickSecretWord words a = .ok sw) : ∃ sw2, pickSecretWord words c = .ok sw2 := by
  cases words with
  | undefined => simp [pickSecretWord] at h
  | inherited len =>
    cases len with
    | none => simp [pickSecretWord] at h
    | some n =>
      by_cases hn : n = 0
      · simp [pickSecretWord, randomInt, hn] at h
      · exact ⟨.undefined, by simp [pickSecretWord, randomInt, hn]⟩
  | own ws =>
    by_cases hn : ws.length = 0
    · simp [pickSecretWord, randomInt, hn] at h
    · have hlt : c % ws.length < ws.length := Nat.mod_lt _ (Nat.pos_of_ne_zero hn)
      have hget : ws.get? (c % ws.length) = some (ws.get ⟨c % ws.length, hlt⟩) :=
        List.get?_eq_get hlt
      exact ⟨.str (ws.get ⟨c % ws.length, hlt⟩), by
        simp only [pickSecretWord, randomInt, hn, if_false, hget]⟩

theorem objGet_remapRoles (roles : List (SocketId × RoleAssignment)) (old s k : SocketId)
    (r : RoleAssignment) (h : objGet (remapRoles roles old s) k = some r) :
    ∃ k2, objGet roles k2 = some r := by
  unfold remapRoles at h
  cases hold : objGet roles old with
  | none =>
    rw [hold] at h
    exact ⟨k, h⟩
  | some r0 =>
    rw [hold] at h
    simp only at h
    obtain ⟨-, h2⟩ := objGet_objDelete_some _ _ _ _ h
    rcases objGet_objSet_cases _ _ _ _ _ h2 with ⟨-, rfl⟩ | ⟨-, h3⟩
    · exact ⟨old, hold⟩
    · exact ⟨k, h3⟩

/-- In every reachable room, a stored role that says imposter has the word
`null`. -/
theorem reachable_imposter_wordless (w : World) (hw : Reachable w) (code : RoomCode)
    (room : Room) (h : objGet w.rooms code = some room) : ImposterWordless room := by
  refine rooms_invariant_reachable ImposterWordless ?_ w hw code room h
  intro w i w1 out hinv hstep code room1 h1
  have hc := step_roomChange w i w1 out hstep code room1 h1
  cases hc with
  | kept i room hk => exact hinv code _ hk
  | created s playerName draws hfresh =>
    intro k r hr
    simp [newRoom, objGet] at hr
  | joined s playerName room hk hstate hname hlen => exact hinv code room hk
  | started s category wd idr room sw imp hacc hcode hsw himp =>
    intro k r hr hi
    have hr2 : objGet (assignRoles room.players imp.id sw) k = some r := hr
    unfold assignRoles at hr2
    rw [objGet_foldl_roles] at hr2
    split at hr2
    · cases hr2
      simp only [decide_eq_true_eq] at hi
      simp [hi]
    · simp [objGet] at hr2
  | ended s room hk hcode hauth => exact hinv code room hk
  | reset s room hk hcode hauth =>
    intro k r hr
    simp [resetRoom, objGet] at hr
  | rejoined s playerName room ex hk hfind =>
    intro k r hr hi
    obtain ⟨k2, hk2⟩ := objGet_remapRoles room.roles ex.id s k r hr
    exact hinv code room hk k2 r hk2 hi
  | removed x room room1 htimer hk hrem =>
    intro k r hr hi
    obtain ⟨first, rest, hf, hroles, -⟩ := removePlayer_some room x room1 hrem
    rw [hroles] at hr
    exact hinv code room hk k r (objGet_objDelete_some _ _ _ _ hr).2 hi

/-- The result of `get-my-role` when the room of the session exists. -/
theorem getMyRole_of_room (v : World) (t : SocketId) (room : Room)
    (h : objGet v.rooms (sessionKey v t) = some room) :
    getMyRole v t
      = .ok (v, match objGet room.roles t with
                | some r => [{ target := .socket t, payload := .yourRole r }]
                | none => []) := by
  unfold getMyRole
  rw [(jsLookup_own _ _ _).mpr h]
  simp only
  cases hr : objGet room.roles t <;> rfl

theorem objGet_remapRoles_cases (roles : List (SocketId × RoleAssignment)) (old s k : SocketId)
    (r : RoleAssignment) (h : objGet (remapRoles roles old s) k = some r) :
    (objGet roles old = none ∧ objGet roles k = some r) ∨
    (k = s ∧ k ≠ old ∧ objGet roles old = some r) ∨
    (k ≠ s ∧ k ≠ old ∧ objGet roles k = some r) := by
  unfold remapRoles at h
  cases hold : objGet roles old with
  | none =>
    rw [hold] at h
    exact Or.inl ⟨rfl, h⟩
  | some r0 =>
    rw [hold] at h
    simp only at h
    obtain ⟨hne, h2⟩ := objGet_objDelete_some _ _ _ _ h
    rcases objGet_objSet_cases _ _ _ _ _ h2 with ⟨hks, rfl⟩ | ⟨hks, h3⟩
    · exact Or.inr (Or.inl ⟨hks, hne, rfl⟩)
    · exact Or.inr (Or.inr ⟨hks, hne, h3⟩)

/-- In every reachable room, a stored role that says imposter is stored under
the key `room.imposterId`. -/
theorem reachable_imposter_keyed (w : World) (hw : Reachable w) (code : RoomCode)
    (room : Room) (h : objGet w.rooms code = some room) : ImposterKeyed room := by
  refine rooms_invariant_reachable ImposterKeyed ?_ w hw code room h
  intro w i w1 out hinv hstep code room1 h1
  have hc := step_roomChange w i w1 out hstep code room1 h1
  cases hc with
  | kept i room hk => exact hinv code _ hk
  | created s playerName draws hfresh =>
    intro k r hr
    simp [newRoom, objGet] at hr
  | joined s playerName room hk hstate hname hlen => exact hinv code room hk
  | started s category wd idr room sw imp hacc hcode hsw himp =>
    intro k r hr hi
    have hr2 : objGet (assignRoles room.players imp.id sw) k = some r := hr
    unfold assignRoles at hr2
    rw [objGet_foldl_roles] at hr2
    split at hr2
    · cases hr2
      simp only [decide_eq_true_eq] at hi
      simp [startedRoom, hi]
    · simp [objGet] at hr2
  | ended s room hk hcode hauth => exact hinv code room hk
  | reset s room hk hcode hauth =>
    intro k r hr
    simp [resetRoom, objGet] at hr
  | rejoined s playerName room ex hk hfind =>
    intro k r hr hi
    have hroom := hinv code room hk
    rcases objGet_remapRoles_cases room.roles ex.id s k r hr with
      ⟨hnone, hkr⟩ | ⟨hks, hko, hold⟩ | ⟨hks, hko, hkr⟩
    · have himp := hroom k r hkr hi
      have hne : k ≠ ex.id := by
        intro e
        rw [e, hnone] at hkr
        cases hkr
      simp [rejoinedRoom, himp, hne]
    · have himp := hroom ex.id r hold hi
      simp [rejoinedRoom, himp, hks]
    · have himp := hroom k r hkr hi
      simp [rejoinedRoom, himp, hko]
  | removed x room room1 htimer hk hrem =>
    intro k r hr hi
    obtain ⟨first, rest, hf, hroles, -, -, -, himp, -⟩ := removePlayer_some room x room1 hrem
    rw [hroles] at hr
    rw [himp]
    exact hinv code room hk k r (objGet_objDelete_some _ _ _ _ hr).2 hi

/-- An input other than `rejoin-room` keeps `ImposterServed` of the room
stored under a code. -/
theorem imposterServed_step (w : World) (i : Input) (w1 : World) (out : List Emit)
    (key : RoomCode)
    (hpre : ∀ room, objGet w.rooms key = some room → ImposterServed room)
    (hi : noRejoin i = true) (hstep : step w i = .ok (w1, out)) :
    ∀ room1, objGet w1.rooms key = some room1 → ImposterServed room1 := by
  intro room1 h1
  have hc := step_roomChange w i w1 out hstep key room1 h1
  cases hc with
  | kept i room hk => exact hpre _ hk
  | created s playerName draws hfresh =>
    intro t r himp
    simp [newRoom] at himp
  | joined s playerName room hk hstate hname hlen => exact hpre room hk
  | started s category wd idr room sw imp hacc hcode hsw himp =>
    intro t r hid hr
    have ht : imp.id = t := by simpa [startedRoom] using hid
    have hr2 : objGet (assignRoles room.players imp.id sw) t = some r := hr
    unfold assignRoles at hr2
    rw [objGet_foldl_roles] at hr2
    split at hr2
    · cases hr2
      simp [ht]
    · simp [objGet] at hr2
  | ended s room hk hcode hauth => exact hpre room hk
  | reset s room hk hcode hauth =>
    intro t r himp
    simp [resetRoom] at himp
  | rejoined s playerName room ex hk hfind => simp [noRejoin] at hi
  | removed x room room2 htimer hk hrem =>
    intro t r hid hr
    obtain ⟨first, rest, hf, hroles, -, -, -, himp, -⟩ := removePlayer_some room x room1 hrem
    rw [hroles] at hr
    rw [himp] at hid
    exact hpre room hk t r hid (objGet_objDelete_some _ _ _ _ hr).2

/-- A run without `rejoin-room` keeps `ImposterServed` of the room stored
under a code. -/
theorem imposterServed_run (key : RoomCode) (inputs : List Input) :
    ∀ (w0 w2 : World), (∀ room, objGet w0.rooms key = some room → ImposterServed room) →
      inputs.all noRejoin = true → run w0 inputs = .ok w2 →
      ∀ room, objGet w2.rooms key = some room → ImposterServed room := by
  induction inputs with
  | nil =>
    intro w0 w2 hpre _ hrun
    simp only [run] at hrun
    cases hrun
    exact hpre
  | cons i rest ih =>
    intro w0 w2 hpre hall hrun
    simp only [List.all_cons, Bool.and_eq_true] at hall
    simp only [run] at hrun
    cases hstep : step w0 i with
    | error e => simp [hstep] at hrun
    | ok res =>
      obtain ⟨w1, out⟩ := res
      simp only [hstep] at hrun
      exact ih w1 w2 (imposterServed_step w0 i w1 out key hpre hall.1 hstep) hall.2 hrun

/-- The room left by `start-game` serves the imposter role to the identity
that `imposterId` names. -/
theorem imposterServed_startedRoom (room : Room) (category : String) (sw : Word)
    (imp : SocketId) : ImposterServed (startedRoom room category sw imp) := by
  intro t r hid hr
  have ht : imp = t := by simpa [startedRoom] using hid
  have hr2 : objGet (assignRoles room.players imp sw) t = some r := hr
  unfold assignRoles at hr2
  rw [objGet_foldl_roles] at hr2
  split at hr2
  · cases hr2
    simp [ht]
  · simp [objGet] at hr2

/-- C10, counterexample. In the started two-player room the imposter is `A`
on socket 1 (`imposterId = 1`). Socket 1 sends `rejoin-room` with the name
`B`: the handler stores the role of `B` under the key 1. `imposterId` is
still 1, and `get-my-role` from socket 1 now delivers
`{isImposter: false, word: 'Inception'}`: the connection that `imposterId`
names receives the secret word. -/
theorem imposter_socket_reads_secret_word :
    run World.empty imposterTakesSeatInputs
      = .ok (oneRoomWorld hostTakesSeatRoom [(1, seat "B"), (2, seat "B")]) ∧
    hostTakesSeatRoom.imposterId = some 1 ∧
    hostTakesSeatRoom.secretWord = .str "Inception" ∧
    getMyRole (oneRoomWorld hostTakesSeatRoom [(1, seat "B"), (2, seat "B")]) 1
      = .ok (oneRoomWorld hostTakesSeatRoom [(1, seat "B"), (2, seat "B")],
             [{ target := .socket 1,
                payload := .yourRole { isImposter := false, word := .str "Inception" } }]) := by
  refine ⟨rfl, rfl, rfl, rfl⟩

/-- C10, as amended. For every room and category on which `start-game` is
accepted and returns for the draws `a`, `b`: the events it emits are the
single room broadcast `game-started` with payload `{category}`, and for any
other draws `c`, `d` the handler returns too and emits the same events.
`get-my-role`, in any world and from any socket, never changes the state and
emits either nothing or exactly one `your-role`, addressed to the requesting
socket and carrying `roles[socket.id]` of the room of its session; it does
return when that room exists; a repeated request gives the same result; in a
reachable world a delivered role that says imposter has the word `null` and
goes to the socket that `imposterId` names. Right after the accepted
`start-game` the socket that `imposterId` names receives
`{isImposter: true, word: null}`, and after any further inputs other than
`rejoin-room` the role stored for the identity that `imposterId` names, if
any, is still `{isImposter: true, word: null}`. -/
theorem role_privacy (w : World) (s : SocketId) (category : String) (room : Room)
    (a b : Nat) (w1 : World) (out1 : List Emit) (hacc : StartAccepted w s category room)
    (h1 : startGame w s category a b = .ok (w1, out1)) :
    out1 = [{ target := .room (sessionKey w s), payload := .gameStarted category }] ∧
    (∀ c d, ∃ w2, startGame w s category c d
      = .ok (w2, [{ target := .room (sessionKey w s), payload := .gameStarted category }])) ∧
    (∀ v t v1 out, getMyRole v t = .ok (v1, out) →
      v1 = v ∧ getMyRole v1 t = .ok (v1, out) ∧
      (out = [] ∨
        ∃ room2 r, objGet v.rooms (sessionKey v t) = some room2 ∧
          objGet room2.roles t = some r ∧
          out = [{ target := .socket t, payload := .yourRole r }] ∧
          (Reachable v → r.isImposter = true →
            r.word = .null ∧ room2.imposterId = some t))) ∧
    (∀ v t room2, objGet v.rooms (sessionKey v t) = some room2 →
      ∃ out, getMyRole v t = .ok (v, out)) ∧
    (∀ t room1, sessionKey w1 t = sessionKey w s →
      objGet w1.rooms (sessionKey w s) = some room1 → room1.imposterId = some t →
      getMyRole w1 t
        = .ok (w1, [{ target := .socket t,
                      payload := .yourRole { isImposter := true, word := .null } }])) ∧
    (∀ inputs w2 room2 t r, inputs.all noRejoin = true → run w1 inputs = .ok w2 →
      objGet w2.rooms (sessionKey w s) = some room2 → room2.imposterId = some t →
      objGet room2.roles t = some r → r = { isImposter := true, word := .null }) := by
  obtain ⟨sw, imp, hsw, himp, hw1, hout⟩ :=
    startGame_accepted_ok w s category a b room w1 out1 hacc h1
  have hrooms : w1.rooms
      = objSet w.rooms (sessionKey w s) (startedRoom room category sw imp.id) := by
    rw [hw1]
  refine ⟨hout, ?_, ?_, ?_, ?_, ?_⟩
  · intro c d
    obtain ⟨sw2, hsw2⟩ := pickSecretWord_draws _ a c sw hsw
    obtain ⟨imp2, -, heq⟩ := startGame_of_accepted w s category c d room sw2 hacc hsw2
    exact ⟨_, heq⟩
  · intro v t v1 out hget
    have hv := getMyRole_world v t v1 out hget
    subst hv
    refine ⟨rfl, hget, ?_⟩
    unfold getMyRole at hget
    split at hget
    · cases hget; exact Or.inl rfl
    · cases hget
    · rename_i room2 hroom2
      have hk2 := (jsLookup_own _ _ _).mp hroom2
      split at hget
      · cases hget; exact Or.inl rfl
      · rename_i r hr
        cases hget
        refine Or.inr ⟨room2, r, hk2, hr, rfl, ?_⟩
        intro hreach hi
        exact ⟨reachable_imposter_wordless v1 hreach _ room2 hk2 t r hr hi,
          reachable_imposter_keyed v1 hreach _ room2 hk2 t r hr hi⟩
  · intro v t room2 hk2
    exact ⟨_, getMyRole_of_room v t room2 hk2⟩
  · intro t room1 hkey hk1 himpid
    rw [hrooms, objGet_objSet_same] at hk1
    cases hk1
    have htid : imp.id = t := by
      simpa [startedRoom] using himpid
    have hmem : imp ∈ room.players := List.get?_mem himp
    have hrole := objGet_assignRoles room.players imp.id sw imp hmem
    rw [htid] at hrole
    have hk3 : objGet w1.rooms (sessionKey w1 t)
        = some (startedRoom room category sw imp.id) := by
      rw [hkey, hrooms]; exact objGet_objSet_same _ _ _
    rw [getMyRole_of_room w1 t _ hk3]
    have hrole2 : objGet (startedRoom room category sw imp.id).roles t
        = some { isImposter := true, word := .null } := by
      simpa [startedRoom, htid] using hrole
    rw [hrole2]
  · intro inputs w2 room2 t r hall hrun hk2 hid hr
    have hpre : ∀ room0, objGet w1.rooms (sessionKey w s) = some room0 →
        ImposterServed room0 := by
      intro room0 h0
      rw [hrooms, objGet_objSet_same] at h0
      cases h0
      exact imposterServed_startedRoom room category sw imp.id
    exact imposterServed_run (sessionKey w s) inputs w1 w2 hpre hall hrun room2 hk2 t r hid hr

/-- C10, witness: the host of the two-player lobby starts a game with
category Movies and draws 3, 0. -/
theorem role_privacy_witness :
    StartAccepted twoPlayerWorld 1 "Movies" twoPlayerRoom ∧
    startGame twoPlayerWorld 1 "Movies" 3 0
      = .ok (startedTwoPlayerWorld, [gameStarted "AAAAAA" "Movies"]) ∧
    ([gameStarted "AAAAAA" "Movies"]
      = [{ target := .room (sessionKey twoPlayerWorld 1), payload := .gameStarted "Movies" }] ∧
    (∀ c d, ∃ w2, startGame twoPlayerWorld 1 "Movies" c d
      = .ok (w2, [{ target := .room (sessionKey twoPlayerWorld 1),
                    payload := .gameStarted "Movies" }])) ∧
    (∀ v t v1 out, getMyRole v t = .ok (v1, out) →
      v1 = v ∧ getMyRole v1 t = .ok (v1, out) ∧
      (out = [] ∨
        ∃ room2 r, objGet v.rooms (sessionKey v t) = some room2 ∧
          objGet room2.roles t = some r ∧
          out = [{ target := .socket t, payload := .yourRole r }] ∧
          (Reachable v → r.isImposter = true →
            r.word = .null ∧ room2.imposterId = some t))) ∧
    (∀ v t room2, objGet v.rooms (sessionKey v t) = some room2 →
      ∃ out, getMyRole v t = .ok (v, out)) ∧
    (∀ t room1, sessionKey startedTwoPlayerWorld t = sessionKey twoPlayerWorld 1 →
      objGet startedTwoPlayerWorld.rooms (sessionKey twoPlayerWorld 1) = some room1 →
      room1.imposterId = some t →
      getMyRole startedTwoPlayerWorld t
        = .ok (startedTwoPlayerWorld,
               [{ target := .socket t,
                  payload := .yourRole { isImposter := true, word := .null } }])) ∧
    (∀ inputs w2 room2 t r, inputs.all noRejoin = true →
      run startedTwoPlayerWorld inputs = .ok w2 →
      objGet w2.rooms (sessionKey twoPlayerWorld 1) = some room2 →
      room2.imposterId = some t →
      objGet room2.roles t = some r → r = { isImposter := true, word := .null })) :=
  ⟨⟨rfl, rfl, rfl, by decide, by decide⟩, rfl,
    role_privacy twoPlayerWorld 1 "Movies" twoPlayerRoom 3 0 startedTwoPlayerWorld
      [gameStarted "AAAAAA" "Movies"] ⟨rfl, rfl, rfl, by decide, by decide⟩ rfl⟩

/-! ## C11: `create-room` -/

/-- Writing a key that is not an own property appends it. -/
theorem objSet_of_none {κ β : Type} [DecidableEq κ] (o : List (κ × β)) (k : κ) (v : β)
    (h : objGet o k = none) : objSet o k v = o ++ [(k, v)] := by
  induction o with
  | nil => rfl
  | cons e rest ih =>
    obtain ⟨k', v'⟩ := e
    by_cases hk : k' = k
    · simp [objGet, hk] at h
    · simp [objGet, hk] at h
      simp [objSet, hk, ih h]

/-- Every character drawn by `randomCode` is one of `chars`. -/
theorem randomChar_mem (draw : Nat) : randomChar draw ∈ chars := by
  unfold randomChar
  have hlt : draw % chars.length < chars.length := Nat.mod_lt _ (by decide)
  rw [List.getD_eq_getElem _ _ hlt]
  exact List.getElem_mem _

/-- A code drawn by `randomCode` has six characters, all of `chars`. -/
theorem randomCode_shape (d0 d1 d2 d3 d4 d5 : Nat) :
    (randomCode d0 d1 d2 d3 d4 d5).length = 6 ∧
      ∀ c ∈ (randomCode d0 d1 d2 d3 d4 d5).data, c ∈ chars := by
  refine ⟨rfl, ?_⟩
  intro c hc
  simp only [randomCode, List.mem_cons, List.mem_singleton, List.not_mem_nil, or_false] at hc
  rcases hc with rfl | rfl | rfl | rfl | rfl | rfl <;> exact randomChar_mem _

/-- The code chosen by the loop of `create-room` is a code of `randomCode`. -/
theorem pickCode_shape (rooms : List (RoomCode × Room)) (draws : List Nat) (code : String)
    (h : pickCode rooms draws = some code) :
    code.length = 6 ∧ ∀ c ∈ code.data, c ∈ chars := by
  induction draws using pickCode.induct rooms with
  | case1 d0 d1 d2 d3 d4 d5 rest htruthy ih =>
    rw [pickCode, if_pos htruthy] at h
    exact ih h
  | case2 d0 d1 d2 d3 d4 d5 rest hfalsy =>
    rw [pickCode, if_neg hfalsy] at h
    cases h
    exact randomCode_shape d0 d1 d2 d3 d4 d5
  | case3 draws hshort =>
    unfold pickCode at h
    split at h
    · rename_i d0 d1 d2 d3 d4 d5 rest
      exact absurd rfl (hshort d0 d1 d2 d3 d4 d5 rest)
    · cases h

/-- C11, counterexample. On a freshly started server socket 1 sends
`create-room` with the empty name, and with a name of two blanks, both empty
after trimming: each time the handler adds the room `AAAAAA` to the registry,
with one player, the host, whose name is the string sent. -/
theorem create_room_accepts_empty_name :
    jsTrim "".data = [] ∧ jsTrim "  ".data = [] ∧
    createRoom World.empty 1 "" [0, 0, 0, 0, 0, 0]
      = .ok ({ rooms := [("AAAAAA", newRoom 1 "")], disconnectTimers := [],
               sessions := [(1, { roomCode := some "AAAAAA", playerName := some "" })] },
             [{ target := .socket 1,
                payload := .roomCreated "AAAAAA" [{ id := 1, name := "", isHost := true }]
                  categoryNames }]) ∧
    createRoom World.empty 1 "  " [0, 0, 0, 0, 0, 0]
      = .ok ({ rooms := [("AAAAAA", newRoom 1 "  ")], disconnectTimers := [],
               sessions := [(1, { roomCode := some "AAAAAA", playerName := some "  " })] },
             [{ target := .socket 1,
                payload := .roomCreated "AAAAAA" [{ id := 1, name := "  ", isHost := true }]
                  categoryNames }]) ∧
    (newRoom 1 "").players = [{ id := 1, name := "", isHost := true }] ∧
    objGet World.empty.rooms "AAAAAA" = none := by
  refine ⟨by decide, by decide, rfl, rfl, rfl, rfl⟩

/-- C11, as amended. `create-room` has no test of the name. For every
`playerName`, empty or not: whenever the handler returns it has added exactly
one room, after the existing ones, under a code of six characters of the
alphabet `ABCDEFGHJKLMNPQRSTUVWXYZ23456789` that was not a key of the
registry before; the room is in the lobby with the creator as its sole player
and host, and every room stored before is stored unchanged. The handler
returns at the first six draws whose code is free: on a free code it returns
with that code, on a taken code it resamples with the remaining draws. -/
theorem create_room_adds_one_room (w : World) (s : SocketId) (playerName : String) :
    (∀ draws w1 out, createRoom w s playerName draws = .ok (w1, out) →
      ∃ code room, code.length = 6 ∧ (∀ c ∈ code.data, c ∈ chars) ∧
        objGet w.rooms code = none ∧
        room.gameState = .lobby ∧
        room.players = [{ id := s, name := playerName, isHost := true }] ∧
        room.host = s ∧ room.category = none ∧ room.secretWord = .null ∧
        room.imposterId = none ∧ room.roles = [] ∧
        w1.rooms = w.rooms ++ [(code, room)] ∧
        (∀ code2 room2, objGet w.rooms code2 = some room2 →
          objGet w1.rooms code2 = some room2) ∧
        w1.disconnectTimers = w.disconnectTimers ∧
        out = [{ target := .socket s,
                 payload := .roomCreated code [{ id := s, name := playerName, isHost := true }]
                   categoryNames }]) ∧
    (∀ d0 d1 d2 d3 d4 d5 rest, roomsTruthy w.rooms (randomCode d0 d1 d2 d3 d4 d5) = false →
      ∃ w1 out, createRoom w s playerName (d0 :: d1 :: d2 :: d3 :: d4 :: d5 :: rest)
          = .ok (w1, out) ∧
        objGet w1.rooms (randomCode d0 d1 d2 d3 d4 d5) = some (newRoom s playerName)) ∧
    (∀ d0 d1 d2 d3 d4 d5 rest, roomsTruthy w.rooms (randomCode d0 d1 d2 d3 d4 d5) = true →
      createRoom w s playerName (d0 :: d1 :: d2 :: d3 :: d4 :: d5 :: rest)
        = createRoom w s playerName rest) := by
  refine ⟨?_, ?_, ?_⟩
  · intro draws w1 out h
    unfold createRoom at h
    split at h
    · cases h
    · rename_i code hpick
      cases h
      obtain ⟨hlen, hchars⟩ := pickCode_shape _ _ _ hpick
      obtain ⟨-, hfresh⟩ := pickCode_fresh _ _ _ hpick
      refine ⟨code, newRoom s playerName, hlen, hchars, hfresh, rfl, rfl, rfl, rfl, rfl, rfl,
        rfl, objSet_of_none _ _ _ hfresh, ?_, rfl, rfl⟩
      intro code2 room2 h2
      have hne : code ≠ code2 := by
        intro e
        rw [e, h2] at hfresh
        cases hfresh
      simpa [objGet_objSet_other _ _ _ _ hne] using h2
  · intro d0 d1 d2 d3 d4 d5 rest hfree
    refine ⟨_, _, by simp only [createRoom, pickCode, hfree]; rfl, objGet_objSet_same _ _ _⟩
  · intro d0 d1 d2 d3 d4 d5 rest htaken
    simp only [createRoom, pickCode, htaken, if_true]

/-! ## C12: identities of the players of a room -/

/-- C12, counterexample. Both runs named by the claim reach a room with two
players of one identity: socket 1 creates a room as `A` and sends `join-room`
for it as `B` (both players have the identity 1); socket 2, member `B` of the
two-player room, sends `rejoin-room` with the name `A` of the other player
(both players have the identity 2). -/
theorem member_socket_takes_second_seat :
    run World.empty sharedSeatInputs = .ok (oneRoomWorld sharedSeatRoom [(1, seat "B")]) ∧
    sharedSeatRoom.players.map (fun p => p.id) = [1, 1] ∧
    ¬ DistinctIds sharedSeatRoom ∧
    run World.empty memberRejoinsInputs
      = .ok (oneRoomWorld memberRejoinedRoom [(1, seat "A"), (2, seat "A")]) ∧
    memberRejoinedRoom.players.map (fun p => p.id) = [2, 2] ∧
    ¬ DistinctIds memberRejoinedRoom := by
  refine ⟨rfl, rfl, ?_, rfl, rfl, ?_⟩
  · intro h
    have h2 : ([1, 1] : List SocketId).Nodup := h
    simp at h2
  · intro h
    have h2 : ([2, 2] : List SocketId).Nodup := h
    simp at h2

/-- C12, as amended. In every world reached from the start-up state by a
sequence of inputs (socket events from any sockets and timer expiries) in
which no `join-room` or `rejoin-room` comes from a socket that already holds
a seat of the target room under another name, no two players of a stored room
have the same identity. -/
theorem ids_distinct_when_seats_kept (inputs : List Input) (w : World)
    (hrun : run World.empty inputs = .ok w)
    (hseat : seatRespecting World.empty inputs = true) :
    ∀ code room, objGet w.rooms code = some room → DistinctIds room := by
  intro code room h
  have hinv : ∀ code room, objGet World.empty.rooms code = some room → RoomOk room := by
    intro code room h0
    simp [World.empty, objGet] at h0
  exact (roomOk_run inputs World.empty w hinv hseat hrun code room h).1

/-- C12, witness: the amended statement on the run in which the second
player disconnects and comes back on a new socket. -/
theorem ids_distinct_when_seats_kept_witness :
    run World.empty guestReconnectsInputs = .ok guestReconnectedWorld ∧
    seatRespecting World.empty guestReconnectsInputs = true ∧
    ∀ code room, objGet guestReconnectedWorld.rooms code = some room → DistinctIds room :=
  ⟨rfl, rfl, ids_distinct_when_seats_kept guestReconnectsInputs guestReconnectedWorld rfl rfl⟩

end Imposter
